import Mathlib

/-!
Verification development for `cores/genchecks.py` of the riscv-formal
repository: a shallow embedding, in Lean 4, of the check-descriptor
generator, together with theorems settling the frozen specification
claims.  Python strings are modelled as Lean `String`/`List Char`,
Python `int` as `Int`/`Nat`, fallible operations (`int(...)`,
`assert`, `KeyError`, `IndexError` turned into `assert 0`) as
`Except String`.  Python `set` objects are modelled as lists with
membership-tested insertion (insertion order); where the program's
output depends on the *iteration order* of a `set` (which CPython does
not fix across processes for elements containing strings), the model
takes the element order as an explicit argument, so that order
dependence is expressible.
-/

set_option maxRecDepth 40000

namespace Genchecks

/-! ### Regular expression engine

The source uses `re.match` (match a prefix of the subject, anchored at
the start) and `re.fullmatch` (match the whole subject).  The patterns
appearing in the configuration rules exercised by the claims use only
literal characters, `.` (any character except newline) and `*`
(zero-or-more of the previous atom); the engine below implements
exactly that fragment, and the parser treats every other character as
a literal. -/

inductive RAtom where
  | ch (c : Char)
  | dot
deriving DecidableEq, Repr

structure RItem where
  atom : RAtom
  starred : Bool
deriving DecidableEq, Repr

/-- Whether a single regex atom matches one character (`.` does not
match a newline, as in Python without `re.DOTALL`). -/
def atomMatches : RAtom → Char → Bool
  | .ch c, d => c == d
  | .dot, d => d != '\n'

/-- Parse a Python pattern string into the literal/dot/star fragment:
`.` is a wildcard atom, `*` stars the preceding atom, every other
character is a literal atom. -/
def parseRegexAux : List Char → List RItem → List RItem
  | [], acc => acc.reverse
  | c :: cs, acc =>
    if c == '*' then
      match acc with
      | i :: rest => parseRegexAux cs ({ i with starred := true } :: rest)
      | [] => parseRegexAux cs acc
    else if c == '.' then
      parseRegexAux cs ({ atom := .dot, starred := false } :: acc)
    else
      parseRegexAux cs ({ atom := .ch c, starred := false } :: acc)

def parseRegex (p : String) : List RItem := parseRegexAux p.toList []

/-- Whole-string matching, the model of `re.fullmatch(pat, s)` being
truthy.  The fuel argument makes the recursion structural (each step
shrinks the pattern or the subject, so pattern length plus subject
length plus one suffices). -/
def refull : Nat → List RItem → List Char → Bool
  | 0, _, _ => false
  | fuel + 1, r, s =>
    match r, s with
    | [], [] => true
    | [], _ :: _ => false
    | i :: rs, [] => i.starred && refull fuel rs []
    | i :: rs, c :: cs =>
      if i.starred then
        refull fuel rs (c :: cs) || (atomMatches i.atom c && refull fuel (i :: rs) cs)
      else
        atomMatches i.atom c && refull fuel rs cs

/-- Prefix matching anchored at the start, the model of
`re.match(pat, s)` being truthy: some prefix of the subject matches the
pattern. -/
def reprefix : Nat → List RItem → List Char → Bool
  | 0, _, _ => false
  | fuel + 1, r, s =>
    match r, s with
    | [], _ => true
    | i :: rs, [] => i.starred && reprefix fuel rs []
    | i :: rs, c :: cs =>
      if i.starred then
        reprefix fuel rs (c :: cs) || (atomMatches i.atom c && reprefix fuel (i :: rs) cs)
      else
        atomMatches i.atom c && reprefix fuel rs cs

/-- Model of `re.fullmatch(pat, s) is not None`. -/
def pyFullmatch (pat s : String) : Bool :=
  let r := parseRegex pat
  refull (r.length + s.toList.length + 1) r s.toList

/-- Model of `re.match(pat, s) is not None`. -/
def pyMatch (pat s : String) : Bool :=
  let r := parseRegex pat
  reprefix (r.length + s.toList.length + 1) r s.toList

/-! ### Python string helpers -/

/-- Whitespace for Python `str.split()` / `str.strip()`. -/
def isWs (c : Char) : Bool :=
  c == ' ' || c == '\t' || c == '\n' || c == '\r' || c == '\x0b' || c == '\x0c'

/-- Model of `str.split()` with no arguments: split on runs of
whitespace, dropping empty fields. -/
def splitWSAux : List Char → List Char → List String → List String
  | [], cur, acc => if cur.isEmpty then acc else acc ++ [String.mk cur.reverse]
  | c :: cs, cur, acc =>
    if isWs c then
      if cur.isEmpty then splitWSAux cs [] acc
      else splitWSAux cs [] (acc ++ [String.mk cur.reverse])
    else
      splitWSAux cs (c :: cur) acc

def splitWS (s : String) : List String := splitWSAux s.toList [] []

/-- Model of `str.split(maxsplit=1)`: at most two fields, the second
keeping its internal and trailing spacing.  An empty result models the
all-whitespace input on which tuple unpacking raises `ValueError`. -/
def splitOnceWS (s : String) : List String :=
  let l := s.toList.dropWhile (fun c => isWs c)
  if l.isEmpty then []
  else
    let tok := l.takeWhile fun c => !(isWs c)
    let rest := (l.dropWhile fun c => !(isWs c)).dropWhile fun c => isWs c
    if rest.isEmpty then [String.mk tok] else [String.mk tok, String.mk rest]

/-- Model of `str.split(sep='=', maxsplit=1)`. -/
def splitEqAux : List Char → List Char → List String
  | [], pre => [String.mk pre.reverse]
  | c :: cs, pre =>
    if c == '=' then [String.mk pre.reverse, String.mk cs]
    else splitEqAux cs (c :: pre)

def splitEqOnce (s : String) : List String := splitEqAux s.toList []

/-- Model of `str.strip()` (no arguments): remove leading and trailing
whitespace. -/
def myTrim (s : String) : String :=
  String.mk (((s.toList.dropWhile fun c => isWs c).reverse.dropWhile fun c => isWs c).reverse)

/-- Model of `str.upper()` on the ASCII names the program uppercases. -/
def myToUpper (s : String) : String := String.mk (s.toList.map Char.toUpper)

/-- Model of `str.startswith(pre)`. -/
def myStartsWith (s pre : String) : Bool := pre.toList.isPrefixOf s.toList

/-- Model of `s[1:]`. -/
def myDrop1 (s : String) : String := String.mk (s.toList.drop 1)

/-- Model of `str.replace(needle, repl)` for a non-empty needle:
replace non-overlapping occurrences left to right (the program only
replaces `"event"` by `"counter"`). -/
def replaceAux (needle repl : List Char) : Nat → List Char → List Char
  | 0, l => l
  | _, [] => []
  | fuel + 1, c :: cs =>
    if needle.isPrefixOf (c :: cs) then
      repl ++ replaceAux needle repl fuel ((c :: cs).drop needle.length)
    else
      c :: replaceAux needle repl fuel cs

def myReplace (s needle repl : String) : String :=
  String.mk (replaceAux needle.toList repl.toList (s.toList.length + 1) s.toList)

/-- Digits-only decimal parse. -/
def digitsToNat? (l : List Char) : Option Nat :=
  if l.isEmpty then none
  else
    l.foldl
      (fun acc c =>
        match acc with
        | some a => if '0' ≤ c && c ≤ '9' then some (a * 10 + (c.toNat - 48)) else none
        | none => none)
      (some 0)

/-- Model of Python `int(s)` on the decimal (optionally negative)
literals the configuration carries; any other string is a parse
failure, as `int` raises `ValueError` there. -/
def pyInt? (s : String) : Option Int :=
  match s.toList with
  | '-' :: rest => (digitsToNat? rest).map fun n => -(n : Int)
  | l => (digitsToNat? l).map fun n => (n : Int)

/-- Python string comparison (lexicographic by code point). -/
def listCharLe : List Char → List Char → Bool
  | [], _ => true
  | _ :: _, [] => false
  | a :: as, b :: bs => if a == b then listCharLe as bs else decide (a < b)

def pyStrLe (a b : String) : Bool := listCharLe a.toList b.toList

/-- Stable insertion into an ascending list: `x` goes after every
element `y` with `le y x`. -/
def insertLe (le : α → α → Bool) (x : α) : List α → List α
  | [] => [x]
  | y :: ys => if le y x then y :: insertLe le x ys else x :: y :: ys

/-- Stable ascending sort (the model of Python `sorted`). -/
def pySortBy (le : α → α → Bool) (l : List α) : List α :=
  l.foldl (fun acc x => insertLe le x acc) []

/-- Substring test, Python `needle in hay` on strings. -/
def isSubstrB (needle hay : String) : Bool :=
  hay.toList.tails.any fun t => needle.toList.isPrefixOf t

/-- Model of `hay.find(needle)`: index of the first occurrence, `none`
for Python's `-1`. -/
def findSubIdxAux (needle : List Char) : List Char → Nat → Option Nat
  | [], i => if needle.isEmpty then some i else none
  | c :: t, i =>
    if needle.isPrefixOf (c :: t) then some i else findSubIdxAux needle t (i + 1)

def pyFind (s sub : String) : Option Nat := findSubIdxAux sub.toList s.toList 0

/-- Model of `str.strip('"')`: remove leading and trailing double
quotes. -/
def stripQuotes (s : String) : String :=
  String.mk (((s.toList.dropWhile (· == '"')).reverse.dropWhile (· == '"')).reverse)

/-- Left padding with a fill character, for Python format specs such as
`{:03X}` and `{:04d}` and `{:0<w>b}`. -/
def padLeft (c : Char) (w : Nat) (l : List Char) : List Char :=
  List.replicate (w - l.length) c ++ l

/-- Uppercase hexadecimal digits of a natural number. -/
def natHexDigits (n : Nat) : List Char := (Nat.toDigits 16 n).map Char.toUpper

/-- Model of the format spec `{n:03X}`. -/
def formatHex3 (n : Nat) : String := String.mk (padLeft '0' 3 (natHexDigits n))

/-- Model of the format spec `{n:0<w>b}` (binary, zero-padded to `w`). -/
def formatBinPad (w : Nat) (n : Nat) : String :=
  String.mk (padLeft '0' w (Nat.toDigits 2 n))

/-- Model of the format spec `{n:04d}` for the sort keys. -/
def formatDec4 (n : Nat) : String := String.mk (padLeft '0' 4 (Nat.toDigits 10 n))

/-- Value of one hexadecimal digit. -/
def hexDigitVal? (c : Char) : Option Nat :=
  if '0' ≤ c ∧ c ≤ '9' then some (c.toNat - 48)
  else if 'a' ≤ c ∧ c ≤ 'f' then some (c.toNat - 87)
  else if 'A' ≤ c ∧ c ≤ 'F' then some (c.toNat - 55)
  else none

/-- Model of Python `int(s, base=16)` on the plain hex literals the
configuration uses; failure models `ValueError`. -/
def pyHexNat? (s : String) : Option Nat :=
  if s.isEmpty then none
  else
    s.toList.foldl
      (fun acc c =>
        match acc, hexDigitVal? c with
        | some a, some d => some (a * 16 + d)
        | _, _ => none)
      (some 0)

/-! ### Quoted-aware test tokenizer

`ISAConfig.add_csr_tests` splits a test-descriptor string with
`re.findall(r"((?:\S*?\"[^\"]*\")+|\S+)", test_str)`.  The functions
below implement that regex's matching behaviour directly: a match is
either one or more repetitions of (a shortest run of non-whitespace
characters followed by a double-quoted block, which may contain
spaces), or else a maximal run of non-whitespace characters; matches
are collected left to right and characters between matches (necessarily
whitespace) are skipped.  Because `[^"]*` is closed by the *next* quote
and may contain whitespace, the lazy `\S*?` never usefully extends past
a quote, so the direct implementation coincides with the regex. -/

/-- Consume `[^"]*"`: everything up to and including the next quote. -/
def spanToQuote : List Char → Option (List Char × List Char)
  | [] => none
  | c :: cs =>
    if c == '"' then some ([c], cs)
    else
      match spanToQuote cs with
      | some (m, r) => some (c :: m, r)
      | none => none

/-- Consume one repetition `\S*?"[^"]*"`: a shortest non-whitespace run
up to the first quote, then the quoted block. -/
def repScan : List Char → Option (List Char × List Char)
  | [] => none
  | c :: cs =>
    if c == '"' then
      match spanToQuote cs with
      | some (m, r) => some (c :: m, r)
      | none => none
    else if isWs c then none
    else
      match repScan cs with
      | some (m, r) => some (c :: m, r)
      | none => none

/-- Greedy `(...)+` over `repScan`, with fuel (each repetition consumes
at least one character). -/
def repsPlusF : Nat → List Char → Option (List Char × List Char)
  | 0, _ => none
  | fuel + 1, l =>
    match repScan l with
    | none => none
    | some (m, rest) =>
      match repsPlusF fuel rest with
      | some (m2, r2) => some (m ++ m2, r2)
      | none => some (m, rest)

/-- The `findall` loop: skip whitespace, prefer the quoted-repetition
alternative, otherwise take a maximal non-whitespace run. -/
def findTokensF : Nat → List Char → List String
  | 0, _ => []
  | fuel + 1, [] => []
  | fuel + 1, c :: cs =>
    if isWs c then findTokensF fuel cs
    else
      match repsPlusF (c :: cs).length (c :: cs) with
      | some (m, rest) => String.mk m :: findTokensF fuel rest
      | none =>
        String.mk ((c :: cs).takeWhile fun ch => !(isWs ch)) ::
          findTokensF fuel ((c :: cs).dropWhile fun ch => !(isWs ch))

/-- Model of `re.findall(r"((?:\S*?\"[^\"]*\")+|\S+)", s)`. -/
def pyTokenizeTests (s : String) : List String :=
  findTokensF (s.length + 1) s.toList

/-! ### Data model

`parse_cfg` produces a dict from section names to entry lists, where
only the canonical `assume` section holds (tag-list, line) pairs and
every other section holds plain lines.  `Config` models that dict
directly; the claims supply section contents as inputs. -/

structure Config where
  sections : List (String × List String) := []
  assumeSec : Option (List (List String × String)) := none
deriving Repr

/-- Model of `name in config` / `config[name]` for the plain sections. -/
def Config.find? (c : Config) (name : String) : Option (List String) :=
  (c.sections.find? fun p => p.1 == name).map (·.2)

/-- Membership-tested insertion: the model of `set.add` on a Python
set, keeping elements in insertion order.  CPython fixes no particular
iteration order for such a set across processes; definitions whose
output depends on iteration order take the element list explicitly. -/
def setInsert [BEq α] (l : List α) (x : α) : List α :=
  if l.contains x then l else l ++ [x]

/-- Model of `dict[k] = v`. -/
def dictUpsert [BEq κ] (d : List (κ × ν)) (k : κ) (v : ν) : List (κ × ν) :=
  if d.any (fun p => p.1 == k) then
    d.map fun p => if p.1 == k then (k, v) else p
  else d ++ [(k, v)]

/-- Model of `dict.get(k)`. -/
def dictGet? [BEq κ] (d : List (κ × ν)) (k : κ) : Option ν :=
  (d.find? fun p => p.1 == k).map (·.2)

structure ISAConfig where
  isa : String := "rv32i"
  compr : Bool := false
  csr_spec : Option String := none
  nret : Nat := 1
  ilen : Nat := 32
  xlen : Nat := 32
  buslen : Nat := 32
  nbus : Nat := 1
  csrs : List String := []
  custom_csrs : List (String × Nat × String) := []
  illegal_csrs : List (String × String × String) := []
  csr_tests : List (String × List String) := []
deriving Repr

structure SolverConfig where
  solver : String := "boolector"
  dumpsmt2 : Bool := false
  abspath : Bool := false
  sbycmd : String := "sby"
  mode : String := "bmc"
  groups : List (Option String) := [none]
  blackbox : Bool := false
deriving Repr

structure PathConfig where
  corename : String
  cfgname : String := "checks"
  basedir : String := "BASE"
deriving Repr

/-- Model of `ISAConfig.add_csr_tests`: tokenize the test string with
the quoted-aware splitter and store the token list under the CSR
name. -/
def ISAConfig.add_csr_tests (cfg : ISAConfig) (csr_name test_str : String) : ISAConfig :=
  { cfg with csr_tests := dictUpsert cfg.csr_tests csr_name (pyTokenizeTests test_str) }

/-- Model of `ISAConfig.add_csr`: split off the name; if a test string
follows, record its tokens; always add the name to the CSR set.
Returns the updated configuration and the name (the Python method
returns the name). -/
def ISAConfig.add_csr (cfg : ISAConfig) (csr_str : String) : ISAConfig × String :=
  match splitOnceWS csr_str with
  | [name, tests] =>
    let cfg := cfg.add_csr_tests name tests
    ({ cfg with csrs := setInsert cfg.csrs name }, name)
  | _ =>
    let name := myTrim csr_str
    ({ cfg with csrs := setInsert cfg.csrs name }, name)

/-- Model of `mask_bits`: OR the bit positions into a mask and render
`{test}_mask={~?}{len}'b{mask, zero-padded binary}`. -/
def mask_bits (test : String) (bits : List Nat) (mask_len : Nat) (invert : Bool := false) : String :=
  let mask := bits.foldl (fun x y => x ||| (1 <<< y)) 0
  test ++ "_mask=" ++ (if invert then "~" else "") ++ toString mask_len ++
    "'b" ++ formatBinPad mask_len mask

/-! ### The CSR-spec 1.12 catalog (`add_all_csrs`) -/

/-- The `spec_csrs` dict literal of `add_all_csrs` (in its insertion
order), including the 29 `mhpmcounter`/`mhpmevent` pairs appended via
`update`. -/
def specCsrsBase (xlen : Nat) : List (String × Option (List String)) :=
  [("mvendorid", some ["const"]),
   ("marchid", some ["const"]),
   ("mimpid", some ["const"]),
   ("mhartid", some ["const"]),
   ("mconfigptr", some ["const"]),
   ("mstatus", some [mask_bits "zero"
      ([0, 2, 4] ++ List.range' 23 8 ++ (if xlen == 64 then [31] ++ List.range' 38 25 else []))
      xlen]),
   ("misa", some [mask_bits "zero"
      ([6, 10, 11, 14, 17, 19, 22, 24, 25] ++ List.range' 26 (xlen - 2 - 26)) xlen]),
   ("mie", none),
   ("mtvec", none),
   ("mscratch", some ["any"]),
   ("mepc", none),
   ("mcause", none),
   ("mtval", none),
   ("mip", none),
   ("mcycle", some ["inc"]),
   ("minstret", some ["inc"])]
  ++ ((List.range' 3 29).map fun i =>
        (("mhpmcounter" ++ toString i : String), (none : Option (List String))))
  ++ ((List.range' 3 29).map fun i =>
        (("mhpmevent" ++ toString i : String), (none : Option (List String))))

structure RestrictedCsr where
  name : String
  key : String
  addr : String
  tests : Option (List String)
deriving Repr

/-- The `restricted_csrs` dict literal of `add_all_csrs`, in insertion
order: `key` is the substring whose presence in the isa identifier
admits the CSR (`data[0]`), `addr` the fixed illegal address
(`data[1]`), `tests` the test list used on admission (`data[2]`). -/
def restrictedCsrs (xlen : Nat) : List RestrictedCsr :=
  [⟨"medeleg", "s", "302", none⟩,
   ⟨"mideleg", "s", "303", none⟩,
   ⟨"mcounteren", "u", "306", none⟩,
   ⟨"mstatush", "32", "310", some [mask_bits "zero" [4, 5] xlen true]⟩,
   ⟨"mtinst", "h", "34A", none⟩,
   ⟨"mtval2", "h", "34B", none⟩,
   ⟨"menvcfg", "u", "30A", none⟩,
   ⟨"menvcfgh", "u", "31A", none⟩]

/-- Python truthiness of an optional list (the `if tests:` guard). -/
def optTruthy : Option (List String) → Bool
  | some l => !l.isEmpty
  | none => false

/-- One iteration of the `for (name, data) in restricted_csrs.items()`
loop: admit into the `spec_csrs` dict, or record the fixed illegal
triple. -/
def restrictedStep (isa : String)
    (acc : List (String × Option (List String)) × List (String × String × String))
    (e : RestrictedCsr) :
    List (String × Option (List String)) × List (String × String × String) :=
  if isSubstrB e.key isa then (dictUpsert acc.1 e.name e.tests, acc.2)
  else (acc.1, setInsert acc.2 (e.addr, "m", "rw"))

/-- One iteration of the `for (name, tests) in spec_csrs.items()` loop. -/
def specSeedStep (c : ISAConfig) (p : String × Option (List String)) : ISAConfig :=
  let c := { c with csrs := setInsert c.csrs p.1 }
  if optTruthy p.2 then
    { c with csr_tests := dictUpsert c.csr_tests p.1 (p.2.getD []) }
  else c

/-- Model of `str.split(maxsplit=2)`. -/
def splitTwiceWS (s : String) : List String :=
  match splitOnceWS s with
  | [a, rest] =>
    match splitOnceWS rest with
    | [b, rest2] => [a, b, rest2]
    | [b] => [a, b]
    | _ => [a]
  | r => r

/-- Model of `add_all_csrs`: seed the 1.12 catalog (with the
privilege-gated table), then merge the user `csrs`, `custom_csrs` and
`illegal_csrs` sections.  Errors model the fatal `ValueError` of
`int(addr, base=16)` and the `assert len(line) == 3`. -/
def addAllCsrs (config : Config) (isa0 : ISAConfig) : Except String ISAConfig := do
  let cfg1 :=
    if isa0.csr_spec == some "1.12" then
      let seeded := (restrictedCsrs isa0.xlen).foldl (restrictedStep isa0.isa)
        (specCsrsBase isa0.xlen, isa0.illegal_csrs)
      seeded.1.foldl specSeedStep { isa0 with illegal_csrs := seeded.2 }
    else isa0
  let cfg2 :=
    match config.find? "csrs" with
    | some lines =>
      lines.foldl (fun c line => if line.isEmpty then c else (c.add_csr line).1) cfg1
    | none => cfg1
  let cfg3 ←
    match config.find? "custom_csrs" with
    | some lines =>
      lines.foldlM
        (fun c line =>
          match splitTwiceWS line with
          | [addr, levels, csr_str] =>
            let nc := c.add_csr csr_str
            match pyHexNat? addr with
            | some a =>
              pure { nc.1 with custom_csrs := setInsert nc.1.custom_csrs (nc.2, a, levels) }
            | none => throw ("int() failed on custom_csrs address: " ++ addr)
          | _ => pure c)
        cfg2
    | none => pure cfg2
  match config.find? "illegal_csrs" with
  | some lines =>
    lines.foldlM
      (fun c line =>
        match splitWS line with
        | [] => pure c
        | [a, b, r] => pure { c with illegal_csrs := setInsert c.illegal_csrs (a, b, r) }
        | _ => throw ("illegal_csrs line must have 3 fields: " ++ line))
      cfg3
  | none => pure cfg3

/-! ### Depth resolution and check filtering -/

/-- One iteration of the `for line in config["depth"]` loop of
`get_depth_cfg`: on a full match of the rule's pattern against any
candidate name, the rule's integer list replaces the current
resolution (the loop keeps scanning, so later rules win).  A
non-integer argument on a matching rule models the fatal
`ValueError` of `int(s)`. -/
def depthStep (patterns : List String) (ret : Option (List Int)) (line : String) :
    Except String (Option (List Int)) :=
  match splitWS (myTrim line) with
  | [] => pure ret
  | pat :: args =>
    if patterns.any (fun p => pyFullmatch pat p) then
      match args.mapM pyInt? with
      | some ints => pure (some ints)
      | none => throw ("int() failed in depth rule: " ++ line)
    else pure ret

/-- Model of `get_depth_cfg`. -/
def getDepthCfg (config : Config) (patterns : List String) :
    Except String (Option (List Int)) :=
  match config.find? "depth" with
  | some lines => lines.foldlM (depthStep patterns) none
  | none => pure none

/-- The scanning loop of `test_disabled` over the `filter-checks`
lines: the first rule whose pattern prefix-matches the check name
decides; malformed rules model the assertion failure. -/
def testDisabledAux : List String → String → Except String Bool
  | [], _ => pure false
  | line :: rest, check =>
    match splitWS (myTrim line) with
    | [] => testDisabledAux rest check
    | [sign, pat] =>
      if sign == "-" || sign == "+" then
        if pyMatch pat check then pure (sign == "-") else testDisabledAux rest check
      else throw ("bad filter-checks sign: " ++ line)
    | _ => throw ("bad filter-checks rule: " ++ line)

/-- Model of `test_disabled`. -/
def testDisabled (config : Config) (check : String) : Except String Bool :=
  match config.find? "filter-checks" with
  | some lines => testDisabledAux lines check
  | none => pure false

/-! ### Assume-line selection -/

/-- The tag-scanning loop over one `assume` entry: at each tag the flag
is reassigned (true for a plain tag, false for a `!` tag); the first
tag whose stripped pattern prefix-matches the check name flips the
flag and stops the scan. -/
def assumeScan : Bool → List String → String → Bool
  | enabled, [], _ => enabled
  | _, p :: ps, check =>
    let neg := myStartsWith p "!"
    let p2 := if neg then myDrop1 p else p
    let enabled := !neg
    if pyMatch p2 check then !enabled else assumeScan enabled ps check

/-- Whether one tagged `assume` line is emitted for a given check name
(the `enabled` flag after the tag loop). -/
def assumeEnabled (tags : List String) (check : String) : Bool :=
  assumeScan true tags check

/-- The lines of the generated `assume_stmts.vh` body for one check:
each tagged entry, kept iff its scan ends enabled. -/
def assumeBlock (entries : List (List String × String)) (check : String) : List String :=
  entries.foldl (fun acc e => if assumeEnabled e.1 check then acc ++ [e.2] else acc) []

/-! ### Template rendering (`hfmt`)

`hfmt` splits a template into lines, strips the `^\s*: ?` prefix,
drops blank unprefixed lines, and substitutes `@ident@` placeholders
from the `hargs` dict (an unbound placeholder raises `KeyError`,
fatal).  Templates are stored here as line lists, already split at the
newlines of the Python triple-quoted strings, with their
significant `: ` prefixes kept. -/

abbrev Hargs := List (String × String)

def hset (h : Hargs) (k v : String) : Hargs := dictUpsert h k v

def isIdentChar (c : Char) : Bool :=
  ('a' ≤ c && c ≤ 'z') || ('A' ≤ c && c ≤ 'Z') || ('0' ≤ c && c ≤ '9') || c == '_'

/-- Model of `re.sub(r"@([a-zA-Z0-9_]+)@", lookup, line)` with a
`KeyError` on an unbound name; fuel is the line length (each step
consumes at least one character). -/
def substAv (kw : Hargs) : Nat → List Char → Except String (List Char)
  | _, [] => pure []
  | 0, l => pure l
  | fuel + 1, c :: cs =>
    if c == '@' then
      let ident := cs.takeWhile isIdentChar
      match cs.dropWhile isIdentChar with
      | '@' :: rest2 =>
        if ident.isEmpty then do
          let t ← substAv kw fuel cs
          pure ('@' :: t)
        else
          match dictGet? kw (String.mk ident) with
          | some v => do
            let t ← substAv kw fuel rest2
            pure (v.toList ++ t)
          | none => throw ("KeyError: " ++ String.mk ident)
      | _ => do
        let t ← substAv kw fuel cs
        pure ('@' :: t)
    else do
      let t ← substAv kw fuel cs
      pure (c :: t)

def substLineE (kw : Hargs) (s : String) : Except String String := do
  let l ← substAv kw (s.toList.length + 1) s.toList
  pure (String.mk l)

/-- Model of the prefix-stripping `re.match(r"^\s*: ?(.*)", line)`. -/
def hfmtStrip? (line : String) : Option String :=
  match line.toList.dropWhile (fun c => isWs c) with
  | ':' :: ' ' :: r2 => some (String.mk r2)
  | ':' :: rest => some (String.mk rest)
  | _ => none

/-- Model of `hfmt` on an already-split line list. -/
def hfmtE (kw : Hargs) (text : List String) : Except String (List String) :=
  text.foldlM
    (fun acc line =>
      match hfmtStrip? line with
      | some stripped => do
        let s ← substLineE kw stripped
        pure (acc ++ [s])
      | none =>
        if myTrim line == "" then pure acc
        else do
          let s ← substLineE kw line
          pure (acc ++ [s]))
    []

/-- Model of `init_hargs`. -/
def initHargs (config : Config) (isa_cfg : ISAConfig) (solver_cfg : SolverConfig)
    (path_cfg : PathConfig) : Hargs :=
  let h : Hargs :=
    [("basedir", path_cfg.basedir), ("core", path_cfg.corename),
     ("nret", toString isa_cfg.nret), ("xlen", toString isa_cfg.xlen),
     ("ilen", toString isa_cfg.ilen), ("buslen", toString isa_cfg.buslen),
     ("nbus", toString isa_cfg.nbus), ("append", "0"), ("mode", solver_cfg.mode)]
  let h :=
    match config.find? "cover" with
    | some lines => hset h "cover" (String.intercalate "\n" lines)
    | none => h
  if solver_cfg.solver == "bmc3" then
    hset (hset h "engine" "abc bmc3") "ilang_file" (path_cfg.corename ++ "-gates.il")
  else if solver_cfg.solver == "btormc" then
    hset (hset h "engine" "btor btormc") "ilang_file" (path_cfg.corename ++ "-hier.il")
  else
    hset (hset h "engine"
        ("smtbmc " ++ (if solver_cfg.dumpsmt2 then "--dumpsmt2 " else "") ++ solver_cfg.solver))
      "ilang_file" (path_cfg.corename ++ "-hier.il")

/-! ### Custom-CSR macro expansion (`print_custom_csrs`)

The Python function iterates `isa_cfg.custom_csrs`, a `set` of
`(name, addr, levels)` tuples; CPython fixes no iteration order for
such a set across processes (string hashing is randomized), so the
model takes the element order as the list order of its argument. -/

/-- The four per-signal format strings of `print_custom_csrs`, applied
to one CSR name and signal suffix. -/
def customSignalLine (mac csr signal : String) : String :=
  if mac == "inputs" then
    "  ,input [`RISCV_FORMAL_NRET * `RISCV_FORMAL_XLEN - 1 : 0] rvfi_csr_" ++ csr ++ "_" ++ signal ++ " \\"
  else if mac == "wires" then
    "  (* keep *) wire [`RISCV_FORMAL_NRET * `RISCV_FORMAL_XLEN - 1 : 0] rvfi_csr_" ++ csr ++ "_" ++ signal ++ "; \\"
  else if mac == "conn" then
    "  ,.rvfi_csr_" ++ csr ++ "_" ++ signal ++ " (rvfi_csr_" ++ csr ++ "_" ++ signal ++ ") \\"
  else if mac == "channel" then
    "  wire [`RISCV_FORMAL_XLEN - 1 : 0] csr_" ++ csr ++ "_" ++ signal ++ " = rvfi_csr_" ++ csr ++ "_" ++ signal ++ " [(_idx)*(`RISCV_FORMAL_XLEN) +: `RISCV_FORMAL_XLEN]; \\"
  else if mac == "signals" then
    "`RISCV_FORMAL_CHANNEL_SIGNAL(`RISCV_FORMAL_NRET, `RISCV_FORMAL_XLEN, csr_" ++ csr ++ "_" ++ signal ++ ") \\"
  else
    "  ,output [`RISCV_FORMAL_NRET * `RISCV_FORMAL_XLEN - 1 : 0] rvfi_csr_" ++ csr ++ "_" ++ signal ++ " \\"

/-- The `indices` format string of `print_custom_csrs`. -/
def customIndexLine (level name : String) (index : Nat) : String :=
  "  localparam [11:0] csr_" ++ level ++ "index_" ++ name ++ " = 12'h" ++ formatHex3 index ++ "; \\"

/-- One macro block: the `` `define `` header, then per custom CSR the
signal lines (or, for `indices`, one address line per privilege level,
with the `0xfff` sentinel for levels not exposing the CSR), then a
blank line. -/
def customMacroBlock (mac : String) (custom : List (String × Nat × String)) : List String :=
  (if mac == "channel" then
    ["`define RISCV_FORMAL_CUSTOM_CSR_" ++ myToUpper mac ++ "(_idx) \\"]
   else
    ["`define RISCV_FORMAL_CUSTOM_CSR_" ++ myToUpper mac ++ " \\"])
  ++ (custom.foldl
      (fun acc c =>
        acc ++
        (if mac == "indices" then
          ["m", "s", "u"].map fun level =>
            if isSubstrB level c.2.2 then customIndexLine level c.1 c.2.1
            else customIndexLine level c.1 0xfff
         else
          ["rmask", "wmask", "rdata", "wdata"].map fun signal =>
            customSignalLine mac c.1 signal))
      [])
  ++ [""]

/-- Model of `print_custom_csrs`: the seven macro blocks in the
insertion order of the `fstrings` dict, over the given element order
of the custom-CSR set. -/
def printCustomCsrs (custom : List (String × Nat × String)) : List String :=
  ["inputs", "wires", "conn", "channel", "signals", "outputs", "indices"].foldl
    (fun acc mac => acc ++ customMacroBlock mac custom) []

/-! ### Instruction / CSR-write / illegal-CSR checks (`check_insn`) -/

structure FileWrite where
  path : String
  lines : List String
deriving Repr, DecidableEq

/-- The `insn` argument of `check_insn` together with the
`csr_mode`/`illegal_csr` flags: a plain instruction name, a CSR name
(`csr_mode=True`), or an illegal-CSR triple (`illegal_csr=True`). -/
inductive InsnArg where
  | insn (s : String)
  | csr (s : String)
  | ill (addr modes rw : String)
deriving Repr, DecidableEq

def insnPrefix : Option String → String
  | none => ""
  | some g => g ++ "_"

/-- The name computations at the head of `check_insn`: the rendered
`insn` string, the final check name, and the depth-rule candidate
patterns.  For an illegal CSR the address is parsed with
`int(addr, base=16)`, whose `ValueError` is fatal. -/
def insnNameInfo (grp : Option String) (arg : InsnArg) (chanidx : Nat) :
    Except String (String × String × List String) :=
  let pf := insnPrefix grp
  match arg with
  | .ill addr _ _ =>
    match pyHexNat? addr with
    | some a =>
      pure ("12'h" ++ formatHex3 a,
        pf ++ "csr_ill_" ++ addr ++ "_ch" ++ toString chanidx,
        [pf ++ "csr_ill", pf ++ "csr_ill_ch" ++ toString chanidx,
         pf ++ "csr_ill_" ++ addr, pf ++ "csr_ill_" ++ addr ++ "_ch" ++ toString chanidx])
    | none => throw ("int() failed on illegal csr address: " ++ addr)
  | .csr s =>
    pure (s, pf ++ "csrw_" ++ s ++ "_ch" ++ toString chanidx,
      [pf ++ "csrw", pf ++ "csrw_ch" ++ toString chanidx,
       pf ++ "csrw_" ++ s, pf ++ "csrw_" ++ s ++ "_ch" ++ toString chanidx])
  | .insn s =>
    pure (s, pf ++ "insn_" ++ s ++ "_ch" ++ toString chanidx,
      [pf ++ "insn", pf ++ "insn_ch" ++ toString chanidx,
       pf ++ "insn_" ++ s, pf ++ "insn_" ++ s ++ "_ch" ++ toString chanidx])

/-- The depth resolution performed by `check_insn` for one candidate
check (name computation followed by `get_depth_cfg`). -/
def insnDepth (config : Config) (grp : Option String) (arg : InsnArg) (chanidx : Nat) :
    Except String (Option (List Int)) := do
  let info ← insnNameInfo grp arg chanidx
  getDepthCfg config info.2.2

def joinSpace (l : List String) : String := String.intercalate " " l

/-- Python `sorted` on strings (lexicographic, stable). -/
def pySortedStr (l : List String) : List String :=
  pySortBy pyStrLe l

def insnOptionsTpl : List String :=
  [": [options]", ": mode @mode@", ": expect pass,fail", ": append @append@",
   ": depth @depth_plus@", ": skip @skip@", ":", ": [engines]", ": @engine@",
   ":", ": [script]"]

def insnFilesTpl : List String :=
  [": chformal -early", ":", ": [files]",
   ": @basedir@/checks/rvfi_macros.vh",
   ": @basedir@/checks/rvfi_channel.sv",
   ": @basedir@/checks/rvfi_testbench.sv"]

def insnDefinesTpl : List String :=
  [":", ": [file defines.sv]",
   ": `define RISCV_FORMAL",
   ": `define RISCV_FORMAL_NRET @nret@",
   ": `define RISCV_FORMAL_XLEN @xlen@",
   ": `define RISCV_FORMAL_ILEN @ilen@",
   ": `define RISCV_FORMAL_RESET_CYCLES 1",
   ": `define RISCV_FORMAL_CHECK_CYCLE @depth@",
   ": `define RISCV_FORMAL_CHANNEL_IDX @channel@"]

def insnIncludeTpl : List String :=
  [": `include \"rvfi_macros.vh\"", ":",
   ": [file @checkch@.sv]",
   ": `include \"defines.sv\"",
   ": `include \"rvfi_channel.sv\"",
   ": `include \"rvfi_testbench.sv\""]

/-- A config section rendered through `hfmt` when present. -/
def sectionLines (config : Config) (hargs : Hargs) (name : String) :
    Except String (List String) :=
  match config.find? name with
  | some t => hfmtE hargs t
  | none => pure []

/-- Model of `check_insn`: resolve depth (a `None` skips the check
before anything is written), apply the filter, then render the
descriptor.  Returns the check name (`none` when skipped), the file
written, and the updated `hargs` dict (which the Python code mutates in
place and shares across calls). -/
def checkInsn (config : Config) (hargs : Hargs) (isa_cfg : ISAConfig)
    (solver_cfg : SolverConfig) (path_cfg : PathConfig)
    (grp : Option String) (arg : InsnArg) (chanidx : Nat) :
    Except String (Option String × Option FileWrite × Hargs) := do
  let info ← insnNameInfo grp arg chanidx
  let insn := info.1
  let check := info.2.1
  match ← getDepthCfg config info.2.2 with
  | none => pure (none, none, hargs)
  | some dcfg =>
    match dcfg with
    | [d] => do
      if ← testDisabled config check then
        pure (none, none, hargs)
      else do
        let hargs := hset hargs "insn" insn
        let hargs := hset hargs "checkch" check
        let hargs := hset hargs "channel" (toString chanidx)
        let hargs := hset hargs "depth" (toString d)
        let hargs := hset hargs "depth_plus" (toString (d + 1))
        let hargs := hset hargs "skip" (toString d)
        let optionsPart ← hfmtE hargs insnOptionsTpl
        let scriptDefines ← sectionLines config hargs "script-defines"
        let svExtra ← sectionLines config hargs "verilog-files"
        let sv_files := [check ++ ".sv"] ++ svExtra
        let vhdl_files ← sectionLines config hargs "vhdl-files"
        let readLines :=
          (if sv_files.length != 0 then ["read -sv " ++ joinSpace sv_files] else [])
          ++ (if vhdl_files.length != 0 then ["read -vhdl " ++ joinSpace vhdl_files] else [])
        let scriptSources ← sectionLines config hargs "script-sources"
        let prepPart ← hfmtE hargs [": prep -flatten -nordff -top rvfi_testbench"]
        let scriptLink ← sectionLines config hargs "script-link"
        let filesPart ← hfmtE hargs insnFilesTpl
        let kindFiles ←
          match arg with
          | .ill _ _ _ => hfmtE hargs [": @basedir@/checks/rvfi_csr_ill_check.sv"]
          | .csr _ => hfmtE hargs [": @basedir@/checks/rvfi_csrw_check.sv"]
          | .insn _ =>
            hfmtE hargs [": @basedir@/checks/rvfi_insn_check.sv", ": @basedir@/insns/insn_@insn@.v"]
        let definesPart ← hfmtE hargs insnDefinesTpl
        let assumeDefine := if config.assumeSec.isSome then ["`define RISCV_FORMAL_ASSUME"] else []
        let unboundedDefine := if solver_cfg.mode == "prove" then ["`define RISCV_FORMAL_UNBOUNDED"] else []
        let csrDefines := (pySortedStr isa_cfg.csrs).map fun csr =>
          "`define RISCV_FORMAL_CSR_" ++ myToUpper csr
        let csrwhDefine :=
          match arg with
          | .csr s => if s == "mcycle" || s == "minstret" then ["`define RISCV_FORMAL_CSRWH"] else []
          | _ => []
        let kindDefines ←
          match arg with
          | .ill _ modes rw => do
            let base ← hfmtE hargs
              [": `define RISCV_FORMAL_CHECKER rvfi_csr_ill_check",
               ": `define RISCV_FORMAL_ILL_CSR_ADDR @insn@"]
            pure (base
              ++ (if isSubstrB "m" modes then ["`define RISCV_FORMAL_ILL_MMODE"] else [])
              ++ (if isSubstrB "s" modes then ["`define RISCV_FORMAL_ILL_SMODE"] else [])
              ++ (if isSubstrB "u" modes then ["`define RISCV_FORMAL_ILL_UMODE"] else [])
              ++ (if isSubstrB "r" rw then ["`define RISCV_FORMAL_ILL_READ"] else [])
              ++ (if isSubstrB "w" rw then ["`define RISCV_FORMAL_ILL_WRITE"] else []))
          | .csr _ =>
            hfmtE hargs
              [": `define RISCV_FORMAL_CHECKER rvfi_csrw_check",
               ": `define RISCV_FORMAL_CSRW_NAME @insn@"]
          | .insn _ =>
            hfmtE hargs
              [": `define RISCV_FORMAL_CHECKER rvfi_insn_check",
               ": `define RISCV_FORMAL_INSN_MODEL rvfi_insn_@insn@"]
        let customPart :=
          if !isa_cfg.custom_csrs.isEmpty then printCustomCsrs isa_cfg.custom_csrs else []
        let blackboxPart := if solver_cfg.blackbox then ["`define RISCV_FORMAL_BLACKBOX_REGS"] else []
        let comprPart := if isa_cfg.compr then ["`define RISCV_FORMAL_COMPRESSED"] else []
        let userDefines ← sectionLines config hargs "defines"
        let includePart ← hfmtE hargs insnIncludeTpl
        let kindIncludes ←
          match arg with
          | .ill _ _ _ => hfmtE hargs [": `include \"rvfi_csr_ill_check.sv\""]
          | .csr _ => hfmtE hargs [": `include \"rvfi_csrw_check.sv\""]
          | .insn _ => hfmtE hargs [": `include \"rvfi_insn_check.sv\"", ": `include \"insn_@insn@.v\""]
        let assumePart :=
          match config.assumeSec with
          | some entries => ["", "[file assume_stmts.vh]"] ++ assumeBlock entries check
          | none => []
        let content :=
          optionsPart ++ scriptDefines ++ readLines ++ scriptSources ++ prepPart
          ++ scriptLink ++ filesPart ++ kindFiles ++ definesPart ++ assumeDefine
          ++ unboundedDefine ++ csrDefines ++ csrwhDefine ++ kindDefines ++ customPart
          ++ blackboxPart ++ comprPart ++ userDefines ++ includePart ++ kindIncludes
          ++ assumePart
        pure (some check,
          some ⟨path_cfg.cfgname ++ "/" ++ check ++ ".sby", content⟩, hargs)
    | _ => throw "assert len(depth_cfg) == 1"

/-! ### Consistency checks (`check_cons`) -/

/-- The results of the CSR-test classification at the head of
`check_cons` (lines parsing `csr_test`): the check name so far (before
any channel suffix), the `hargs["check"]` kind name, the optional
values bound for the CSRC defines (a Python local left unassigned is
`none`, and the later `locals()` lookup skips its define), the CSR
name, and the possibly extended `ISAConfig` (the hpm branch lazily
adds the paired counter CSR to the csrs set). -/
structure ConsParsed where
  check : String
  checkName : String
  constval : Option String := none
  hpmevent : Option String := none
  hpmcounter : Option String := none
  csr_mask : Option String := none
  csrName : Option String := none
  isa : ISAConfig
deriving Repr

/-- Model of the `csr_mode` name/test classification of `check_cons`.
A `_mask` token without an `=value` hits `assert 0` (fatal); a bare
`const` token falls back to `rdata_shadow`; a bare `hpm` token leaves
the event unbound. -/
def consParse (isa_cfg : ISAConfig) (pf check : String) (csr_mode : Bool)
    (csr_test : Option String) : Except String ConsParsed :=
  if csr_mode then
    let csr_name := check
    match csr_test with
    | some t0 => do
      let (t1, csr_mask) ←
        match pyFind t0 "_mask" with
        | some idx =>
          match splitEqOnce (String.mk (t0.toList.drop idx)) with
          | [_, v] => pure (String.mk (t0.toList.take idx), some (stripQuotes v))
          | _ => throw ("assert 0 after printing: " ++ t0)
        | none => pure (t0, (none : Option String))
      if myStartsWith t1 "const" then
        let constval :=
          match splitEqOnce t1 with
          | [_, v] => stripQuotes v
          | _ => "rdata_shadow"
        pure { check := pf ++ "csrc_const_" ++ csr_name, checkName := "csrc_const",
               constval := some constval, csr_mask := csr_mask,
               csrName := some csr_name, isa := isa_cfg }
      else if myStartsWith t1 "hpm" then
        let hpmevent :=
          match splitEqOnce t1 with
          | [_, v] => some (stripQuotes v)
          | _ => none
        let hpmcounter := myReplace csr_name "event" "counter"
        let isa2 := { isa_cfg with csrs := setInsert isa_cfg.csrs hpmcounter }
        pure { check := pf ++ "csrc_hpm_" ++ csr_name, checkName := "csrc_hpm",
               hpmevent := hpmevent, hpmcounter := some hpmcounter,
               csr_mask := csr_mask, csrName := some csr_name, isa := isa2 }
      else
        pure { check := pf ++ "csrc_" ++ t1 ++ "_" ++ csr_name,
               checkName := "csrc_" ++ t1, csr_mask := csr_mask,
               csrName := some csr_name, isa := isa_cfg }
    | none =>
      pure { check := pf ++ "csrc_" ++ csr_name, checkName := "csrc",
             csrName := some csr_name, isa := isa_cfg }
  else
    pure { check := pf ++ check, checkName := check, isa := isa_cfg }

/-- The depth-rule candidate patterns used by `check_cons`, given the
parsed names. -/
def consPatterns (pf : String) (p : ConsParsed) (csr_mode : Bool) (chanidx : Option Nat) :
    List String :=
  if csr_mode then
    match chanidx with
    | some c =>
      [pf ++ p.checkName, p.check, pf ++ p.checkName ++ "_ch" ++ toString c,
       p.check ++ "_ch" ++ toString c]
    | none => [p.checkName, p.check]
  else
    match chanidx with
    | some c => [p.check, p.check ++ "_ch" ++ toString c]
    | none => [p.check]

/-- The depth resolution performed by `check_cons` for one candidate
(classification followed by `get_depth_cfg`). -/
def consDepth (config : Config) (isa_cfg : ISAConfig) (grp : Option String)
    (check : String) (chanidx : Option Nat) (csr_mode : Bool) (csr_test : Option String) :
    Except String (Option (List Int)) := do
  let pf := insnPrefix grp
  let p ← consParse isa_cfg pf check csr_mode csr_test
  getDepthCfg config (consPatterns pf p csr_mode chanidx)

/-- Model of the list indexing `depth_cfg[i]` (an `IndexError` is
fatal). -/
def pyIndex (l : List Int) (i : Nat) : Except String Int :=
  match l[i]? with
  | some v => pure v
  | none => throw "IndexError: depth_cfg"

/-- The `xmode` override of `check_cons`: the configured proof mode,
forced to `cover` when the final check name is the literal `cover` or
contains `csrc_hpm`. -/
def consXmode (mode check : String) : String :=
  if check == "cover" || isSubstrB "csrc_hpm" check then "cover" else mode

def consOptionsTpl : List String :=
  [": [options]", ": mode @xmode@", ": expect pass,fail", ": append @append@",
   ": depth @depth_plus@", ": skip @skip@", ":", ": [engines]", ": @engine@",
   ":", ": [script]"]

def consFilesTpl : List String :=
  [": chformal -early", ":", ": [files]",
   ": @basedir@/checks/rvfi_macros.vh",
   ": @basedir@/checks/rvfi_channel.sv",
   ": @basedir@/checks/rvfi_testbench.sv",
   ": @basedir@/checks/rvfi_@check@_check.sv",
   ":", ": [file defines.sv]"]

def consDefinesTpl : List String :=
  [": `define RISCV_FORMAL",
   ": `define RISCV_FORMAL_NRET @nret@",
   ": `define RISCV_FORMAL_XLEN @xlen@",
   ": `define RISCV_FORMAL_ILEN @ilen@",
   ": `define RISCV_FORMAL_CHECKER rvfi_@check@_check",
   ": `define RISCV_FORMAL_RESET_CYCLES @start@",
   ": `define RISCV_FORMAL_CHECK_CYCLE @depth@"]

def consIncludeTpl : List String :=
  [": `include \"rvfi_macros.vh\"", ":",
   ": [file @checkch@.sv]",
   ": `include \"defines.sv\"",
   ": `include \"rvfi_channel.sv\"",
   ": `include \"rvfi_testbench.sv\"",
   ": `include \"rvfi_@check@_check.sv\""]

def consCoverTpl : List String :=
  [":", ": [file cover_stmts.vh]", ": @cover@"]

def consBusTpl : List String :=
  [": `define RISCV_FORMAL_BUS",
   ": `define RISCV_FORMAL_NBUS @nbus@",
   ": `define RISCV_FORMAL_BUSLEN @buslen@"]

/-- The `start` resolution of `check_cons` (`depth_cfg[start]`, or the
default 1 when no index was passed). -/
def consStartVal (depth_cfg : List Int) (start : Option Nat) : Except String Int :=
  match start with
  | some i => pyIndex depth_cfg i
  | none => pure 1

/-- The `trig` resolution of `check_cons`. -/
def consTrigVal (depth_cfg : List Int) (trig : Option Nat) : Except String (Option Int) :=
  match trig with
  | some i => do pure (some (← pyIndex depth_cfg i))
  | none => pure none

/-- The `depth` resolution of `check_cons` (a `None` index would make
`depth + 1` raise `TypeError`; no caller passes it). -/
def consDepthVal (depth_cfg : List Int) (depth : Option Nat) : Except String Int :=
  match depth with
  | some i => pyIndex depth_cfg i
  | none => throw "TypeError: depth is None"

/-- The `hargs["mode"]` read of `check_cons` (`KeyError` is fatal). -/
def hargsMode (hargs : Hargs) : Except String String :=
  match dictGet? hargs "mode" with
  | some m => pure m
  | none => throw "KeyError: mode"

/-- The bus-protocol defines block (empty unless `bus_mode`). -/
def consBusPart (hargs : Hargs) (bus_mode : Bool) : Except String (List String) :=
  if bus_mode then hfmtE hargs consBusTpl else pure []

/-- The `cover_stmts` block, emitted exactly for the group's cover
check. -/
def consCoverPart (hargs : Hargs) (pf check : String) : Except String (List String) :=
  if check == pf ++ "cover" then hfmtE hargs consCoverTpl else pure []

/-- The descriptor text rendered by `check_cons` once the check has
survived depth resolution and filtering: the contents of the
`.sby` file, in emission order. -/
def consRender (config : Config) (hargs : Hargs) (isa_cfg : ISAConfig)
    (solver_cfg : SolverConfig) (p : ConsParsed) (pf check : String)
    (chanidx : Option Nat) (trigVal : Option Int) (csr_mode bus_mode : Bool) :
    Except String (List String) := do
  let optionsPart ← hfmtE hargs consOptionsTpl
  let scriptDefines ← sectionLines config hargs "script-defines"
  let scriptDefinesKind ← sectionLines config hargs ("script-defines " ++ p.checkName)
  let svExtra ← sectionLines config hargs "verilog-files"
  let sv_files := [check ++ ".sv"] ++ svExtra
  let vhdl_files ← sectionLines config hargs "vhdl-files"
  let readLines :=
    (if sv_files.length != 0 then ["read -sv " ++ joinSpace sv_files] else [])
    ++ (if vhdl_files.length != 0 then ["read -vhdl " ++ joinSpace vhdl_files] else [])
  let scriptSources ← sectionLines config hargs "script-sources"
  let prepPart ← hfmtE hargs [": prep -flatten -nordff -top rvfi_testbench"]
  let scriptLink ← sectionLines config hargs "script-link"
  let filesPart ← hfmtE hargs consFilesTpl
  let definesPart ← hfmtE hargs consDefinesTpl
  let assumeDefine := if config.assumeSec.isSome then ["`define RISCV_FORMAL_ASSUME"] else []
  let unboundedDefine :=
    if solver_cfg.mode == "prove" then ["`define RISCV_FORMAL_UNBOUNDED"] else []
  let csrDefines := (pySortedStr isa_cfg.csrs).map fun csr =>
    "`define RISCV_FORMAL_CSR_" ++ myToUpper csr
  let csrcDefines :=
    if csr_mode then
      ((match p.constval with
        | some v => ["`define RISCV_FORMAL_CSRC_CONSTVAL " ++ v]
        | none => [])
      ++ (match p.hpmevent with
          | some v => ["`define RISCV_FORMAL_CSRC_HPMEVENT " ++ v]
          | none => [])
      ++ (match p.hpmcounter with
          | some v => ["`define RISCV_FORMAL_CSRC_HPMCOUNTER " ++ v]
          | none => [])
      ++ (match p.csr_mask with
          | some v => ["`define RISCV_FORMAL_CSRC_MASK " ++ v]
          | none => [])
      ++ ["`define RISCV_FORMAL_CSRC_NAME " ++ p.csrName.getD ""])
    else []
  let customPart :=
    if !isa_cfg.custom_csrs.isEmpty then printCustomCsrs isa_cfg.custom_csrs else []
  let blackboxAlu :=
    if solver_cfg.blackbox && p.checkName != "liveness" then
      ["`define RISCV_FORMAL_BLACKBOX_ALU"]
    else []
  let blackboxRegs :=
    if solver_cfg.blackbox && p.checkName != "reg" then
      ["`define RISCV_FORMAL_BLACKBOX_REGS"]
    else []
  let channelPart :=
    match chanidx with
    | some c => ["`define RISCV_FORMAL_CHANNEL_IDX " ++ toString c]
    | none => []
  let trigPart :=
    match trigVal with
    | some t => ["`define RISCV_FORMAL_TRIG_CYCLE " ++ toString t]
    | none => []
  let busPart ← consBusPart hargs bus_mode
  let fairnessPart :=
    if p.checkName == "liveness" || p.checkName == "hang" then
      ["`define RISCV_FORMAL_FAIRNESS"]
    else []
  let userDefines ← sectionLines config hargs "defines"
  let userDefinesKind ← sectionLines config hargs ("defines " ++ p.checkName)
  let includePart ← hfmtE hargs consIncludeTpl
  let coverPart ← consCoverPart hargs pf check
  let assumePart :=
    match config.assumeSec with
    | some entries => ["", "[file assume_stmts.vh]"] ++ assumeBlock entries check
    | none => []
  let content :=
    optionsPart ++ scriptDefines ++ scriptDefinesKind ++ readLines ++ scriptSources
    ++ prepPart ++ scriptLink ++ filesPart ++ definesPart ++ assumeDefine
    ++ unboundedDefine ++ csrDefines ++ csrcDefines ++ customPart ++ blackboxAlu
    ++ blackboxRegs ++ channelPart ++ trigPart ++ busPart ++ fairnessPart
    ++ userDefines ++ userDefinesKind ++ includePart ++ coverPart ++ assumePart
  pure content

/-- Model of `check_cons`.  `start`, `trig` and `depth` are the indices
into the resolved depth list, as passed by
`add_all_consistency_checks`.  Returns the check name (`none` when
skipped), the file written, the possibly extended `ISAConfig`, and the
updated shared `hargs` dict. -/
def checkCons (config : Config) (hargs : Hargs) (isa_cfg : ISAConfig)
    (solver_cfg : SolverConfig) (path_cfg : PathConfig)
    (grp : Option String) (check0 : String) (chanidx : Option Nat := none)
    (start : Option Nat := none) (depth : Option Nat := some 0)
    (trig : Option Nat := none) (csr_mode : Bool := false)
    (csr_test : Option String := none) (bus_mode : Bool := false) :
    Except String (Option String × Option FileWrite × ISAConfig × Hargs) := do
  let pf := insnPrefix grp
  let p ← consParse isa_cfg pf check0 csr_mode csr_test
  let isa_cfg := p.isa
  let hargs := hset hargs "check" p.checkName
  let hargs :=
    match chanidx with
    | some c => hset hargs "channel" (toString c)
    | none => hargs
  let check :=
    match chanidx with
    | some c => p.check ++ "_ch" ++ toString c
    | none => p.check
  match ← getDepthCfg config (consPatterns pf p csr_mode chanidx) with
  | none => pure (none, none, isa_cfg, hargs)
  | some depth_cfg => do
    let startVal ← consStartVal depth_cfg start
    let trigVal ← consTrigVal depth_cfg trig
    let depthVal ← consDepthVal depth_cfg depth
    let hargs := hset hargs "start" (toString startVal)
    let hargs := hset hargs "depth" (toString depthVal)
    let hargs := hset hargs "depth_plus" (toString (depthVal + 1))
    let hargs := hset hargs "skip" (toString depthVal)
    let hargs := hset hargs "checkch" check
    let mode ← hargsMode hargs
    let hargs := hset hargs "xmode" (consXmode mode check)
    if ← testDisabled config check then
      pure (none, none, isa_cfg, hargs)
    else do
      let content ← consRender config hargs isa_cfg solver_cfg p pf check chanidx
        trigVal csr_mode bus_mode
      pure (some check,
        some ⟨path_cfg.cfgname ++ "/" ++ check ++ ".sby", content⟩, isa_cfg, hargs)

/-! ### Enumeration (`add_all_check_insn`, `add_all_consistency_checks`) -/

/-- Python `sorted(illegal_csrs, key=lambda csr: csr[0])`: stable sort
by address string over the set's iteration order. -/
def sortIllegal (l : List (String × String × String)) : List (String × String × String) :=
  pySortBy (fun a b => pyStrLe a.1 b.1) l

/-- The candidate list of `add_all_check_insn`: per group, the
instruction file lines (stripped), the sorted CSR names, the illegal
CSRs sorted by address, each crossed with the channel indices. -/
def insnCandidates (isa_cfg : ISAConfig) (solver_cfg : SolverConfig)
    (isaInsns : List String) : List (Option String × InsnArg × Nat) :=
  solver_cfg.groups.flatMap fun grp =>
    ((isaInsns.map fun i => InsnArg.insn (myTrim i))
      ++ ((pySortedStr isa_cfg.csrs).map fun c => InsnArg.csr c)
      ++ ((sortIllegal isa_cfg.illegal_csrs).map fun t => InsnArg.ill t.1 t.2.1 t.2.2)
    ).flatMap fun a => (List.range isa_cfg.nret).map fun ch => (grp, a, ch)

/-- Model of `add_all_check_insn`: run `check_insn` over every
candidate, collect the non-skipped names into a set (deduplicated) and
the writes in order, threading the shared `hargs`. -/
def addAllCheckInsn (config : Config) (hargs : Hargs) (isa_cfg : ISAConfig)
    (solver_cfg : SolverConfig) (path_cfg : PathConfig) (isaInsns : List String) :
    Except String (List String × List FileWrite × Hargs) := do
  let res ← (insnCandidates isa_cfg solver_cfg isaInsns).foldlM
    (fun acc t => do
      let r ← checkInsn config acc.2.2 isa_cfg solver_cfg path_cfg t.1 t.2.1 t.2.2
      pure (
        (match r.1 with | some n => acc.1 ++ [n] | none => acc.1),
        (match r.2.1 with | some w => acc.2.1 ++ [w] | none => acc.2.1),
        r.2.2))
    (([] : List String), ([] : List FileWrite), hargs)
  pure (res.1.dedup, res.2.1, res.2.2)

/-- The fixed per-channel consistency catalog of
`add_all_consistency_checks`: check name, `start` index, `trig` index,
`depth` index, `bus_mode`. -/
def consChanCalls : List (String × Option Nat × Option Nat × Option Nat × Bool) :=
  [("reg", some 0, none, some 1, false),
   ("pc_fwd", some 0, none, some 1, false),
   ("pc_bwd", some 0, none, some 1, false),
   ("liveness", some 0, some 1, some 2, false),
   ("unique", some 0, some 1, some 2, false),
   ("causal", some 0, none, some 1, false),
   ("causal_mem", some 0, none, some 1, false),
   ("causal_io", some 0, none, some 1, false),
   ("ill", none, none, some 0, false),
   ("fault", none, none, some 0, false),
   ("bus_imem", some 0, none, some 1, true),
   ("bus_imem_fault", some 0, none, some 1, true),
   ("bus_dmem", some 0, none, some 1, true),
   ("bus_dmem_fault", some 0, none, some 1, true),
   ("bus_dmem_io_read", some 0, none, some 1, true),
   ("bus_dmem_io_read_fault", some 0, none, some 1, true),
   ("bus_dmem_io_write", some 0, none, some 1, true),
   ("bus_dmem_io_write_fault", some 0, none, some 1, true),
   ("bus_dmem_io_order", some 0, none, some 1, true)]

structure ConsAcc where
  names : List String
  writes : List FileWrite
  isa : ISAConfig
  hargs : Hargs

def consAccStep (acc : ConsAcc)
    (r : Option String × Option FileWrite × ISAConfig × Hargs) : ConsAcc :=
  { names := (match r.1 with | some n => acc.names ++ [n] | none => acc.names),
    writes := (match r.2.1 with | some w => acc.writes ++ [w] | none => acc.writes),
    isa := r.2.2.1,
    hargs := r.2.2.2 }

/-- Model of `add_all_consistency_checks`: per group, the per-channel
catalog, then `hang` and `cover`, then per sorted CSR (a snapshot of
the csrs set at that point of the run, which earlier hpm checks may
have extended) and channel one check per attached test descriptor
(`[None]` when the CSR has none). -/
def addAllConsistencyChecks (config : Config) (hargs : Hargs) (isa_cfg : ISAConfig)
    (solver_cfg : SolverConfig) (path_cfg : PathConfig) :
    Except String (List String × List FileWrite × ISAConfig × Hargs) := do
  let acc ← solver_cfg.groups.foldlM
    (fun (acc : ConsAcc) grp => do
      let acc ← (List.range isa_cfg.nret).foldlM
        (fun (acc : ConsAcc) i =>
          consChanCalls.foldlM
            (fun (acc : ConsAcc) call => do
              let r ← checkCons config acc.hargs acc.isa solver_cfg path_cfg grp
                call.1 (some i) call.2.1 call.2.2.2.1 call.2.2.1 false none call.2.2.2.2
              pure (consAccStep acc r))
            acc)
        acc
      let r ← checkCons config acc.hargs acc.isa solver_cfg path_cfg grp "hang"
        none (some 0) (some 1) none false none false
      let acc := consAccStep acc r
      let r ← checkCons config acc.hargs acc.isa solver_cfg path_cfg grp "cover"
        none (some 0) (some 1) none false none false
      let acc := consAccStep acc r
      let snapshot := pySortedStr acc.isa.csrs
      snapshot.foldlM
        (fun (acc : ConsAcc) csr =>
          (List.range isa_cfg.nret).foldlM
            (fun (acc : ConsAcc) chanidx =>
              (match dictGet? acc.isa.csr_tests csr with
                | some ts => ts.map some
                | none => [none]).foldlM
                (fun (acc : ConsAcc) csr_test => do
                  let r ← checkCons config acc.hargs acc.isa solver_cfg path_cfg grp
                    csr (some chanidx) (some 0) (some 1) none true csr_test false
                  pure (consAccStep acc r))
                acc)
            acc)
        acc)
    ⟨[], [], isa_cfg, hargs⟩
  pure (acc.names.dedup, acc.writes, acc.isa, acc.hargs)

/-! ### Build file (`create_makefile`, `checks_key`) -/

/-- The scan over the `sort` section in `checks_key`: the first
full-matching pattern yields a rank-prefixed key. -/
def sortKeyScan : List String → String → Nat → Option String
  | [], _, _ => none
  | line :: rest, check, idx =>
    if pyFullmatch (myTrim line) check then some (formatDec4 idx ++ "-" ++ check)
    else sortKeyScan rest check (idx + 1)

/-- Model of `checks_key`. -/
def checksKey (config : Config) (check : String) : String :=
  match
    (match config.find? "sort" with
     | some lines => sortKeyScan lines check 0
     | none => none)
  with
  | some s => s
  | none => if myStartsWith check "insn_" then "9999-" ++ check else "9998-" ++ check

/-- Model of `create_makefile`: the sorted union of the two check
sets, an `all` target listing every check, and per check the
status-dependency and solver-invocation rules. -/
def createMakefile (config : Config) (solver_cfg : SolverConfig)
    (cons_checks inst_checks : List String) : List String :=
  let checks := pySortBy
    (fun a b => pyStrLe (checksKey config a) (checksKey config b))
    ((cons_checks ++ inst_checks).dedup)
  ["all:" ++ String.join (checks.map fun c => " " ++ c)]
  ++ checks.flatMap fun check =>
    [check ++ ": " ++ check ++ "/status",
     check ++ "/status:",
     "\t" ++ solver_cfg.sbycmd ++ " " ++
       (if solver_cfg.abspath then "$(shell pwd)/" else "") ++ check ++ ".sby",
     ".PHONY: " ++ check]

/-! ### The whole generation run -/

structure RunResult where
  names : List String
  writes : List FileWrite
  makefile : List String
deriving Repr

/-- The final filesystem: the write events folded left to right, a
later write to the same path overwriting the earlier one. -/
def fsApply (writes : List FileWrite) : List (String × List String) :=
  writes.foldl (fun fs w => dictUpsert fs w.path w.lines) []

/-- Model of the `__main__` generation sequence (after directory
setup): seed the CSR model, build `hargs`, enumerate instruction then
consistency checks, and write the makefile.  `isaInsns` models the
contents of the external `insns/isa_<isa>.txt` file. -/
def runChecks (config : Config) (isa0 : ISAConfig) (solver_cfg : SolverConfig)
    (path_cfg : PathConfig) (isaInsns : List String) : Except String RunResult := do
  let isa_cfg ← addAllCsrs config isa0
  let hargs := initHargs config isa_cfg solver_cfg path_cfg
  let r1 ← addAllCheckInsn config hargs isa_cfg solver_cfg path_cfg isaInsns
  let r2 ← addAllConsistencyChecks config r1.2.2 isa_cfg solver_cfg path_cfg
  let mk := createMakefile config solver_cfg r2.1 r1.1
  pure { names := (r2.1 ++ r1.1).dedup,
         writes := r1.2.1 ++ r2.2.1 ++ [⟨path_cfg.cfgname ++ "/makefile", mk⟩],
         makefile := mk }

/-- The check name produced by one `check_insn` run (`none` for a
skipped check or an aborted run). -/
def insnProducedName (r : Except String (Option String × Option FileWrite × Hargs)) :
    Option String :=
  match r with
  | .ok (n, _, _) => n
  | .error _ => none

/-- The file written by one `check_insn` run. -/
def insnProducedWrite (r : Except String (Option String × Option FileWrite × Hargs)) :
    Option FileWrite :=
  match r with
  | .ok (_, w, _) => w
  | .error _ => none

/-- The check name produced by one `check_cons` run. -/
def consProducedName
    (r : Except String (Option String × Option FileWrite × ISAConfig × Hargs)) :
    Option String :=
  match r with
  | .ok (n, _, _, _) => n
  | .error _ => none

/-- The file written by one `check_cons` run. -/
def consProducedWrite
    (r : Except String (Option String × Option FileWrite × ISAConfig × Hargs)) :
    Option FileWrite :=
  match r with
  | .ok (_, w, _, _) => w
  | .error _ => none

/-- The check-set names of a whole run (empty for an aborted run). -/
def runNames (r : Except String RunResult) : List String :=
  match r with
  | .ok x => x.names
  | .error _ => []

/-- The write events of a whole run (empty for an aborted run). -/
def runWrites (r : Except String RunResult) : List FileWrite :=
  match r with
  | .ok x => x.writes
  | .error _ => []

/-! ### Auxiliary definitions used by the claim theorems -/

/-- Whether a tag carries the `!` negation marker. -/
def tagNeg (p : String) : Bool := myStartsWith p "!"

/-- A tag's pattern with the negation marker stripped. -/
def tagPat (p : String) : String := if myStartsWith p "!" then myDrop1 p else p

/-- The first tag whose stripped pattern prefix-matches the check name
(where the scan of `check_insn`/`check_cons` breaks). -/
def firstMatchTag? (tags : List String) (check : String) : Option String :=
  tags.find? fun p => pyMatch (tagPat p) check

/-- The (name, gate-key, address) projections of the privilege-gated
table, a closed list usable for decidable disjointness facts. -/
def restrictedNKA : List (String × String × String) :=
  [("medeleg", "s", "302"), ("mideleg", "s", "303"), ("mcounteren", "u", "306"),
   ("mstatush", "32", "310"), ("mtinst", "h", "34A"), ("mtval2", "h", "34B"),
   ("menvcfg", "u", "30A"), ("menvcfgh", "u", "31A")]

def c10cfg : Config :=
  { sections := [("depth", ["cover 2 5", "g_cover 2 5", "csrc_hpm.* 2 5"]),
                 ("cover", ["cover (x);"])] }

def c10hargs : Hargs := initHargs c10cfg {} {} { corename := "c" }

def c10run : Except String (Option String × Option FileWrite × ISAConfig × Hargs) :=
  checkCons c10cfg c10hargs {} {} { corename := "c" } (some "g") "cover"
    none (some 0) (some 1) none false none false

def c10name : String :=
  match c10run with
  | .ok (some n, _, _, _) => n
  | _ => ""

def c10fw : FileWrite :=
  match c10run with
  | .ok (_, some w, _, _) => w
  | _ => ⟨"", []⟩

def c10isa2 : ISAConfig :=
  match c10run with
  | .ok (_, _, i, _) => i
  | _ => {}

def c10hargs2 : Hargs :=
  match c10run with
  | .ok (_, _, _, hs) => hs
  | _ => []

/-! ## Shared lemmas -/

theorem exbind_ok {α β : Type} (a : α) (f : α → Except String β) :
    (Except.ok a >>= f) = f a := rfl

theorem exbind_error {α β : Type} (e : String) (f : α → Except String β) :
    ((Except.error e : Except String α) >>= f) = Except.error e := rfl

theorem expure_eq {α : Type} (a : α) : (pure a : Except String α) = Except.ok a := rfl

theorem mem_setInsert {α : Type} [BEq α] [LawfulBEq α] (l : List α) (x y : α) :
    y ∈ setInsert l x ↔ y ∈ l ∨ y = x := by
  unfold setInsert
  cases h : l.contains x with
  | true =>
    have hx : x ∈ l := List.elem_iff.mp h
    simp only [h, if_true]
    constructor
    · exact Or.inl
    · rintro (hy | rfl)
      · exact hy
      · exact hx
  | false =>
    simp only [h, Bool.false_eq_true, if_false, List.mem_append, List.mem_singleton]

theorem dictUpsert_keys {ν : Type} (d : List (String × ν)) (k : String) (v : ν) :
    (dictUpsert d k v).map (·.1) =
      if d.any (fun p => p.1 == k) then d.map (·.1) else d.map (·.1) ++ [k] := by
  unfold dictUpsert
  by_cases h : d.any (fun p => p.1 == k)
  · simp only [h, if_pos, List.map_map]
    apply List.map_congr_left
    intro p _
    by_cases hp : p.1 = k
    · simp [hp]
    · simp [hp]
  · simp [h]

theorem mem_dictUpsert_keys {ν : Type} (d : List (String × ν)) (k : String) (v : ν)
    (x : String) :
    (x ∈ (dictUpsert d k v).map (·.1)) ↔ x ∈ d.map (·.1) ∨ x = k := by
  rw [dictUpsert_keys]
  by_cases h : d.any (fun p => p.1 == k)
  · simp only [h, if_pos]
    constructor
    · exact Or.inl
    · rintro (hx | rfl)
      · exact hx
      · rcases List.any_eq_true.mp h with ⟨p, hp, hpk⟩
        have := eq_of_beq hpk
        subst this
        exact List.mem_map_of_mem _ hp
  · simp [h]

end Genchecks

namespace Genchecks

/-! ## Claims -/

/-- Claim C1, counterexample: with the rule list
`[("+","foo.*"), ("-","foo_bar")]` the check `foo_bar` is *enabled*
(`test_disabled` returns `False`): the first rule `+ foo.*` already
prefix-matches `foo_bar`, so under first-match-wins the claimed
exclusion of `foo_bar` is wrong. -/
theorem C1_counterexample :
    testDisabled { sections := [("filter-checks", ["+ foo.*", "- foo_bar"])] } "foo_bar"
      = .ok false := rfl

/-- Claim C1 (amended): check filtering is first-match-wins — the
first `filter-checks` rule whose pattern partially (prefix) matches
the check name decides the result (`-` disables, `+` enables) and
later rules are not consulted; in particular, with the rule list
`[("+","foo.*"), ("-","foo_bar")]`, both `foo_bar` and `foo_baz` are
included (the first rule matches both). -/
theorem C1_filter_first_match :
    (∀ (line : String) (rest : List String) (check sign pat : String),
      splitWS (myTrim line) = [sign, pat] → (sign = "-" ∨ sign = "+") →
      testDisabledAux (line :: rest) check =
        (if pyMatch pat check then .ok (sign == "-") else testDisabledAux rest check))
    ∧ testDisabled { sections := [("filter-checks", ["+ foo.*", "- foo_bar"])] } "foo_bar"
        = .ok false
    ∧ testDisabled { sections := [("filter-checks", ["+ foo.*", "- foo_bar"])] } "foo_baz"
        = .ok false := by
  refine ⟨?_, rfl, rfl⟩
  intro line rest check sign pat hsplit hsign
  have hstep : testDisabledAux (line :: rest) check =
      (match splitWS (myTrim line) with
       | [] => testDisabledAux rest check
       | [sign', pat'] =>
         if sign' == "-" || sign' == "+" then
           (if pyMatch pat' check then pure (sign' == "-") else testDisabledAux rest check)
         else throw ("bad filter-checks sign: " ++ line)
       | _ => throw ("bad filter-checks rule: " ++ line)) := rfl
  rw [hstep, hsplit]
  rcases hsign with h | h <;> subst h <;>
    cases hpm : pyMatch pat check <;> simp [hpm, expure_eq]

/-- Claim C1 witness: the first-match-wins step applied to the
concrete rule `- foo.*` and check `foo_bar`. -/
theorem C1_witness :
    testDisabledAux ["- foo.*"] "foo_bar" =
      (if pyMatch "foo.*" "foo_bar" then .ok (("-" : String) == "-")
       else testDisabledAux [] "foo_bar") :=
  C1_filter_first_match.1 "- foo.*" [] "foo_bar" "-" "foo.*" (by decide) (Or.inl rfl)

/-- Claim C2, counterexample: the rule line `insn .* 3 4` of the claim
tokenizes to the pattern `insn` with arguments `.*`, `3`, `4`; the
pattern full-matches the candidate variant `insn` of check
`insn_add_ch0`, whereupon `int(".*")` raises, so the run aborts instead
of resolving the claimed `[5,6]`. -/
theorem C2_counterexample :
    getDepthCfg { sections := [("depth", ["insn .* 3 4", "insn_add 5 6"])] }
        ["insn", "insn_ch0", "insn_add", "insn_add_ch0"]
      = .error "int() failed in depth rule: insn .* 3 4" := rfl

/-- Claim C2 (amended): depth resolution is last-match-wins over the
ordered `depth` rules — appending a rule makes its `depthStep` act on
the earlier rules' resolution, and a matching well-formed rule
overrides whatever came before; in particular, with well-formed rule
`insn_.* 3 4` declared before rule `insn_add 5 6`, check
`insn_add_ch0` resolves to `[5,6]` and `insn_sub_ch0` to `[3,4]` (the
claim's literal first rule `insn .* 3 4` is malformed and aborts the
run, see the counterexample). -/
theorem C2_depth_last_match :
    (∀ (lines : List String) (l : String) (patterns : List String),
      getDepthCfg { sections := [("depth", lines ++ [l])] } patterns =
        (getDepthCfg { sections := [("depth", lines)] } patterns).bind
          (fun prev => depthStep patterns prev l))
    ∧ (∀ prev, depthStep ["insn", "insn_ch0", "insn_add", "insn_add_ch0"] prev "insn_add 5 6"
        = .ok (some [5, 6]))
    ∧ getDepthCfg { sections := [("depth", ["insn_.* 3 4", "insn_add 5 6"])] }
        ["insn", "insn_ch0", "insn_add", "insn_add_ch0"] = .ok (some [5, 6])
    ∧ getDepthCfg { sections := [("depth", ["insn_.* 3 4", "insn_add 5 6"])] }
        ["insn", "insn_ch0", "insn_sub", "insn_sub_ch0"] = .ok (some [3, 4]) := by
  refine ⟨?_, ?_, rfl, rfl⟩
  · intro lines l patterns
    show List.foldlM _ _ (lines ++ [l]) = _
    rw [List.foldlM_append]
    have hdef : getDepthCfg { sections := [("depth", lines)] } patterns
        = List.foldlM (depthStep patterns) none lines := rfl
    rw [hdef]
    cases List.foldlM (depthStep patterns) none lines with
    | error e => rfl
    | ok prev =>
      show depthStep patterns prev l >>= (fun b => List.foldlM (depthStep patterns) b [])
          = depthStep patterns prev l
      cases depthStep patterns prev l <;> rfl
  · intro prev
    rfl

/-- Claim C4 (code bug): `print_custom_csrs` iterates the
`custom_csrs` set directly; two enumeration orders of the same
two-element set (CPython does not fix one across processes for tuples
holding strings) yield different descriptor text, so byte-identical
output across repeated runs is not guaranteed. -/
theorem C4_custom_csr_order_dependence :
    ([("foo", 0x7C0, "mu"), ("bar", 0x7C4, "mu")] : List (String × Nat × String)).Perm
        [("bar", 0x7C4, "mu"), ("foo", 0x7C0, "mu")]
    ∧ printCustomCsrs [("foo", 0x7C0, "mu"), ("bar", 0x7C4, "mu")]
        ≠ printCustomCsrs [("bar", 0x7C4, "mu"), ("foo", 0x7C0, "mu")] := by
  constructor
  · decide
  · decide

/-- Claim C7, counterexample: a `const` token with no `=value` suffix
is *not* fatal — `check_cons` catches the `IndexError` and falls back
to the constant `rdata_shadow`, and the run continues. -/
theorem C7_counterexample :
    consParse {} "" "mstatus" true (some "const")
      = .ok { check := "csrc_const_mstatus", checkName := "csrc_const",
              constval := some "rdata_shadow", csrName := some "mstatus",
              isa := {} } := rfl

/-- Claim C7 (amended): of the tagged test-descriptor tokens, only a
`_mask` token lacking its `=value` suffix is fatal (`assert 0` aborts
the whole run); a `const` token without `=value` is non-fatal and
falls back to `rdata_shadow`, and an `hpm` token without `=value` is
non-fatal and leaves the HPMEVENT value unbound. -/
theorem C7_missing_value :
    (∀ (isa_cfg : ISAConfig) (pf csr : String),
      consParse isa_cfg pf csr true (some "const_mask")
        = .error "assert 0 after printing: const_mask")
    ∧ (∀ (isa_cfg : ISAConfig) (pf csr : String),
      consParse isa_cfg pf csr true (some "const")
        = .ok { check := pf ++ "csrc_const_" ++ csr, checkName := "csrc_const",
                constval := some "rdata_shadow", csrName := some csr, isa := isa_cfg })
    ∧ (∀ (isa_cfg : ISAConfig) (pf csr : String),
      consParse isa_cfg pf csr true (some "hpm")
        = .ok { check := pf ++ "csrc_hpm_" ++ csr, checkName := "csrc_hpm",
                hpmevent := none, hpmcounter := some (myReplace csr "event" "counter"),
                csrName := some csr,
                isa := { isa_cfg with
                  csrs := setInsert isa_cfg.csrs (myReplace csr "event" "counter") } }) :=
  ⟨fun _ _ _ => rfl, fun _ _ _ => rfl, fun _ _ _ => rfl⟩

theorem foldl_dictUpsert_keys_nodup (writes : List FileWrite)
    (fs : List (String × List String)) (hfs : (fs.map (·.1)).Nodup) :
    ((writes.foldl (fun fs w => dictUpsert fs w.path w.lines) fs).map (·.1)).Nodup := by
  induction writes generalizing fs with
  | nil => exact hfs
  | cons w ws ih =>
    apply ih
    rw [dictUpsert_keys]
    by_cases h : fs.any (fun p => p.1 == w.path)
    · simpa [h] using hfs
    · simp only [h, Bool.false_eq_true, if_false]
      rw [List.nodup_append]
      refine ⟨hfs, List.nodup_singleton _, ?_⟩
      intro x hx hx1
      rcases List.mem_map.mp hx with ⟨p, hp, hpx⟩
      rcases List.mem_singleton.mp hx1 with rfl
      exact h (List.any_eq_true.mpr ⟨p, hp, by simp [hpx]⟩)

/-- Claim C5: check names are globally unique within one generation
run — the returned check set never holds two entries with the same
name, and the final filesystem holds exactly one descriptor file per
path; in particular, when the duplicated group `g` makes two
enumeration paths compute the same name `g_reg_ch0`, the output set
has one entry, the two write events target the same path, and exactly
one file remains. -/
theorem C5_name_dedup :
    (∀ (config : Config) (isa0 : ISAConfig) (solver_cfg : SolverConfig)
       (path_cfg : PathConfig) (isaInsns : List String),
      (runNames (runChecks config isa0 solver_cfg path_cfg isaInsns)).Nodup)
    ∧ (∀ (config : Config) (isa0 : ISAConfig) (solver_cfg : SolverConfig)
       (path_cfg : PathConfig) (isaInsns : List String),
      ((fsApply (runWrites (runChecks config isa0 solver_cfg path_cfg isaInsns))).map
        (·.1)).Nodup)
    ∧ runNames (runChecks { sections := [("depth", ["g_reg 0 1"])] } {}
        { groups := [none, some "g", some "g"] } { corename := "c" } []) = ["g_reg_ch0"]
    ∧ (runWrites (runChecks { sections := [("depth", ["g_reg 0 1"])] } {}
        { groups := [none, some "g", some "g"] } { corename := "c" } [])).map (·.path)
        = ["checks/g_reg_ch0.sby", "checks/g_reg_ch0.sby", "checks/makefile"]
    ∧ (fsApply (runWrites (runChecks { sections := [("depth", ["g_reg 0 1"])] } {}
        { groups := [none, some "g", some "g"] } { corename := "c" } []))).map (·.1)
        = ["checks/g_reg_ch0.sby", "checks/makefile"] := by
  refine ⟨?_, ?_, rfl, rfl, rfl⟩
  · intro config isa0 solver_cfg path_cfg isaInsns
    unfold runNames
    cases hr : runChecks config isa0 solver_cfg path_cfg isaInsns with
    | error e => exact List.nodup_nil
    | ok x =>
      simp only [runChecks] at hr
      cases h1 : addAllCsrs config isa0 with
      | error e => rw [h1, exbind_error] at hr; exact absurd hr (by simp)
      | ok isa_cfg =>
        rw [h1, exbind_ok] at hr
        cases h2 : addAllCheckInsn config (initHargs config isa_cfg solver_cfg path_cfg)
            isa_cfg solver_cfg path_cfg isaInsns with
        | error e => rw [h2, exbind_error] at hr; exact absurd hr (by simp)
        | ok r1 =>
          rw [h2, exbind_ok] at hr
          cases h3 : addAllConsistencyChecks config r1.2.2 isa_cfg solver_cfg path_cfg with
          | error e => rw [h3, exbind_error] at hr; exact absurd hr (by simp)
          | ok r2 =>
            rw [h3, exbind_ok] at hr
            cases hr
            exact List.nodup_dedup _
  · intro config isa0 solver_cfg path_cfg isaInsns
    exact foldl_dictUpsert_keys_nodup _ [] List.nodup_nil

/-- Claim C3: if the depth resolution for a candidate check comes back
`None` (no `depth` rule matches any of its candidate name variants),
the check is skipped before the filter is consulted and before any
file is opened: `check_insn` returns `None` leaving `hargs` and the
filesystem untouched, and `check_cons` produces no name and no write,
whatever the `filter-checks` section says. -/
theorem C3_depth_gating :
    (∀ (config : Config) (hargs : Hargs) (isa_cfg : ISAConfig) (solver_cfg : SolverConfig)
       (path_cfg : PathConfig) (grp : Option String) (arg : InsnArg) (chanidx : Nat),
      insnDepth config grp arg chanidx = .ok none →
      checkInsn config hargs isa_cfg solver_cfg path_cfg grp arg chanidx
        = .ok (none, none, hargs))
    ∧ (∀ (config : Config) (hargs : Hargs) (isa_cfg : ISAConfig) (solver_cfg : SolverConfig)
       (path_cfg : PathConfig) (grp : Option String) (check0 : String)
       (chanidx start depth trig : Option Nat) (csr_mode : Bool) (csr_test : Option String)
       (bus_mode : Bool),
      consDepth config isa_cfg grp check0 chanidx csr_mode csr_test = .ok none →
      consProducedName (checkCons config hargs isa_cfg solver_cfg path_cfg grp check0
          chanidx start depth trig csr_mode csr_test bus_mode) = none
      ∧ consProducedWrite (checkCons config hargs isa_cfg solver_cfg path_cfg grp check0
          chanidx start depth trig csr_mode csr_test bus_mode) = none) := by
  constructor
  · intro config hargs isa_cfg solver_cfg path_cfg grp arg chanidx h
    unfold insnDepth at h
    cases hinfo : insnNameInfo grp arg chanidx with
    | error e =>
      rw [hinfo, exbind_error] at h
      exact absurd h (by simp)
    | ok info =>
      rw [hinfo, exbind_ok] at h
      unfold checkInsn
      rw [hinfo, exbind_ok, h, exbind_ok]
      rfl
  · intro config hargs isa_cfg solver_cfg path_cfg grp check0 chanidx start depth trig
      csr_mode csr_test bus_mode h
    simp only [consDepth] at h
    cases hp : consParse isa_cfg (insnPrefix grp) check0 csr_mode csr_test with
    | error e =>
      rw [hp, exbind_error] at h
      exact absurd h (by simp)
    | ok p =>
      rw [hp, exbind_ok] at h
      constructor <;>
      · simp only [checkCons]
        rw [hp, exbind_ok, h, exbind_ok]
        rfl

/-- Claim C3 witness: with an empty configuration (no `depth` section)
the instruction check `insn_add_ch0` and the consistency check `reg`
are both skipped with nothing written. -/
theorem C3_witness :
    checkInsn {} [] {} {} { corename := "c" } none (.insn "add") 0 = .ok (none, none, [])
    ∧ (consProducedName (checkCons {} [] {} {} { corename := "c" } none "reg"
          none none (some 0) none false none false) = none
       ∧ consProducedWrite (checkCons {} [] {} {} { corename := "c" } none "reg"
          none none (some 0) none false none false) = none) :=
  ⟨C3_depth_gating.1 {} [] {} {} { corename := "c" } none (.insn "add") 0 rfl,
   C3_depth_gating.2 {} [] {} {} { corename := "c" } none "reg"
     none none (some 0) none false none false rfl⟩

theorem assumeScan_spec (tags : List String) (check : String) (e : Bool) :
    assumeScan e tags check =
      match firstMatchTag? tags check with
      | some p => tagNeg p
      | none =>
        match tags.getLast? with
        | some p => !(tagNeg p)
        | none => e := by
  induction tags generalizing e with
  | nil => rfl
  | cons p ps ih =>
    show (if pyMatch (tagPat p) check then !(!(tagNeg p)) else assumeScan (!(tagNeg p)) ps check)
        = _
    cases hm : pyMatch (tagPat p) check with
    | true =>
      simp only [if_pos, Bool.not_not]
      simp [firstMatchTag?, List.find?, hm]
    | false =>
      simp only [Bool.false_eq_true, if_false]
      rw [ih]
      cases ps with
      | nil => simp [firstMatchTag?, List.find?, hm]
      | cons q qs => simp [firstMatchTag?, List.find?, hm, List.getLast?]

theorem assumeBlock_eq (entries : List (List String × String)) (check : String) :
    assumeBlock entries check =
      (entries.filter fun e => assumeEnabled e.1 check).map (·.2) := by
  have h : ∀ (es : List (List String × String)) (acc : List String),
      es.foldl (fun acc e => if assumeEnabled e.1 check then acc ++ [e.2] else acc) acc
        = acc ++ (es.filter fun e => assumeEnabled e.1 check).map (·.2) := by
    intro es
    induction es with
    | nil => intro acc; simp
    | cons e es ih =>
      intro acc
      cases he : assumeEnabled e.1 check <;>
        simp [List.foldl_cons, he, ih, List.filter_cons]
  exact h entries []

/-- Claim C6, counterexample: the tagged line `[assume !foo] L` with
check name `bar` has no matching tag, yet the line is *excluded* —
the enabled flag was last reassigned to false by the unmatched `!foo`
tag — contradicting "a tagged line none of whose tags matches the
check name is always included". -/
theorem C6_counterexample :
    assumeBlock [(["!foo"], "assume (x);")] "bar" = [] := rfl

/-- Claim C6 (amended): for each tagged `assume` line the tags are
scanned left to right; at each tag the flag is *reassigned* (true for
a plain tag, false for a `!` tag), the first tag whose stripped
pattern partially matches the check's canonical name flips the flag
and stops the scan, and the line is included iff the final flag is
true — so a matched plain tag excludes the line, a matched `!` tag
includes it, and a line none of whose tags matches is included iff it
has no tags or its last tag lacks the negation marker. -/
theorem C6_assume_selection :
    (∀ (tags : List String) (check : String),
      assumeEnabled tags check =
        match firstMatchTag? tags check with
        | some p => tagNeg p
        | none =>
          match tags.getLast? with
          | some p => !(tagNeg p)
          | none => true)
    ∧ (∀ (entries : List (List String × String)) (check : String),
      assumeBlock entries check =
        (entries.filter fun e => assumeEnabled e.1 check).map (·.2))
    ∧ assumeBlock [(["!foo"], "L")] "bar" = []
    ∧ assumeBlock [(["!foo"], "L")] "foo" = ["L"]
    ∧ assumeBlock [(["foo"], "L")] "foo" = []
    ∧ assumeBlock [(["foo"], "L")] "bar" = ["L"]
    ∧ assumeBlock [(([] : List String), "L")] "bar" = ["L"] :=
  ⟨fun tags check => assumeScan_spec tags check true,
   assumeBlock_eq, rfl, rfl, rfl, rfl, rfl⟩

theorem addAllCsrs_empty (isa0 : ISAConfig) :
    addAllCsrs {} isa0 = .ok
      (if isa0.csr_spec == some "1.12" then
        ((restrictedCsrs isa0.xlen).foldl (restrictedStep isa0.isa)
            (specCsrsBase isa0.xlen, isa0.illegal_csrs)).1.foldl specSeedStep
          { isa0 with
            illegal_csrs := ((restrictedCsrs isa0.xlen).foldl (restrictedStep isa0.isa)
              (specCsrsBase isa0.xlen, isa0.illegal_csrs)).2 }
      else isa0) := by
  unfold addAllCsrs
  split <;> rfl

theorem specSeedStep_csrs (c : ISAConfig) (p : String × Option (List String)) :
    (specSeedStep c p).csrs = setInsert c.csrs p.1 := by
  unfold specSeedStep
  split <;> rfl

theorem specSeedStep_illegal (c : ISAConfig) (p : String × Option (List String)) :
    (specSeedStep c p).illegal_csrs = c.illegal_csrs := by
  unfold specSeedStep
  split <;> rfl

theorem specSeed_illegal (dict : List (String × Option (List String))) (c : ISAConfig) :
    (dict.foldl specSeedStep c).illegal_csrs = c.illegal_csrs := by
  induction dict generalizing c with
  | nil => rfl
  | cons p d ih => rw [List.foldl_cons, ih, specSeedStep_illegal]

theorem specSeed_csrs_mem (dict : List (String × Option (List String))) (c : ISAConfig)
    (x : String) :
    x ∈ (dict.foldl specSeedStep c).csrs ↔ x ∈ c.csrs ∨ x ∈ dict.map (·.1) := by
  induction dict generalizing c with
  | nil => simp
  | cons p d ih =>
    rw [List.foldl_cons, ih, specSeedStep_csrs, mem_setInsert]
    simp only [List.map_cons, List.mem_cons]
    tauto

theorem restrictedFold_keys_mem (isa : String) (l : List RestrictedCsr)
    (dict : List (String × Option (List String))) (ill : List (String × String × String))
    (x : String) :
    x ∈ (l.foldl (restrictedStep isa) (dict, ill)).1.map (·.1) ↔
      x ∈ dict.map (·.1) ∨ ∃ e ∈ l, isSubstrB e.key isa = true ∧ e.name = x := by
  induction l generalizing dict ill with
  | nil => simp
  | cons e es ih =>
    rw [List.foldl_cons]
    have hstep : restrictedStep isa (dict, ill) e =
        if isSubstrB e.key isa then (dictUpsert dict e.name e.tests, ill)
        else (dict, setInsert ill (e.addr, "m", "rw")) := rfl
    rw [hstep]
    by_cases hg : isSubstrB e.key isa = true
    · rw [if_pos hg, ih, mem_dictUpsert_keys]
      simp only [List.mem_cons, hg]
      constructor
      · rintro ((hx | rfl) | ⟨e', he', hg', rfl⟩)
        · exact Or.inl hx
        · exact Or.inr ⟨e, Or.inl rfl, hg, rfl⟩
        · exact Or.inr ⟨e', Or.inr he', hg', rfl⟩
      · rintro (hx | ⟨e', (rfl | he'), hg', rfl⟩)
        · exact Or.inl (Or.inl hx)
        · exact Or.inl (Or.inr rfl)
        · exact Or.inr ⟨e', he', hg', rfl⟩
    · rw [if_neg hg, ih]
      simp only [List.mem_cons]
      constructor
      · rintro (hx | ⟨e', he', hg', rfl⟩)
        · exact Or.inl hx
        · exact Or.inr ⟨e', Or.inr he', hg', rfl⟩
      · rintro (hx | ⟨e', (rfl | he'), hg', rfl⟩)
        · exact Or.inl hx
        · exact absurd hg' hg
        · exact Or.inr ⟨e', he', hg', rfl⟩

theorem restrictedFold_illegal_mem (isa : String) (l : List RestrictedCsr)
    (dict : List (String × Option (List String))) (ill : List (String × String × String))
    (t : String × String × String) :
    t ∈ (l.foldl (restrictedStep isa) (dict, ill)).2 ↔
      t ∈ ill ∨ ∃ e ∈ l, ¬(isSubstrB e.key isa = true) ∧ t = (e.addr, "m", "rw") := by
  induction l generalizing dict ill with
  | nil => simp
  | cons e es ih =>
    rw [List.foldl_cons]
    have hstep : restrictedStep isa (dict, ill) e =
        if isSubstrB e.key isa then (dictUpsert dict e.name e.tests, ill)
        else (dict, setInsert ill (e.addr, "m", "rw")) := rfl
    rw [hstep]
    by_cases hg : isSubstrB e.key isa = true
    · rw [if_pos hg, ih]
      simp only [List.mem_cons]
      constructor
      · rintro (hx | ⟨e', he', hg', rfl⟩)
        · exact Or.inl hx
        · exact Or.inr ⟨e', Or.inr he', hg', rfl⟩
      · rintro (hx | ⟨e', (rfl | he'), hg', rfl⟩)
        · exact Or.inl hx
        · exact absurd hg hg'
        · exact Or.inr ⟨e', he', hg', rfl⟩
    · rw [if_neg hg, ih, mem_setInsert]
      simp only [List.mem_cons]
      constructor
      · rintro ((hx | rfl) | ⟨e', he', hg', rfl⟩)
        · exact Or.inl hx
        · exact Or.inr ⟨e, Or.inl rfl, hg, rfl⟩
        · exact Or.inr ⟨e', Or.inr he', hg', rfl⟩
      · rintro (hx | ⟨e', (rfl | he'), hg', rfl⟩)
        · exact Or.inl (Or.inl hx)
        · exact Or.inl (Or.inr rfl)
        · exact Or.inr ⟨e', he', hg', rfl⟩

theorem specCsrsBase_names (xlen : Nat) :
    (specCsrsBase xlen).map (·.1) =
      ["mvendorid", "marchid", "mimpid", "mhartid", "mconfigptr", "mstatus", "misa",
       "mie", "mtvec", "mscratch", "mepc", "mcause", "mtval", "mip", "mcycle", "minstret"]
      ++ ((List.range' 3 29).map fun i => "mhpmcounter" ++ toString i)
      ++ ((List.range' 3 29).map fun i => "mhpmevent" ++ toString i) := by
  simp only [specCsrsBase, List.map_append, List.map_map, List.map_cons, List.map_nil]
  rfl

theorem restrictedCsrs_nka (xlen : Nat) :
    (restrictedCsrs xlen).map (fun e => (e.name, e.key, e.addr)) = restrictedNKA := rfl

/-- Claim C8: with CSR spec 1.12 and isa `rv32i` (no `s`), `medeleg`
goes to `illegal_csrs` as `("302","m","rw")` and never enters the
legal CSR set; in general, over an `ISAConfig` with spec 1.12 and
empty user CSR state, each privilege-gated catalog CSR enters the
legal set iff its gate key (`s`/`u`/`h`/`32`) occurs as a substring of
the isa identifier, and otherwise lands in `illegal_csrs` with its
fixed address/level/read-write triple. -/
theorem C8_privilege_gating :
    ((addAllCsrs {} { isa := "rv32i", csr_spec := some "1.12" }).map
        (fun c => (c.illegal_csrs.contains ("302", "m", "rw"), c.csrs.contains "medeleg")))
      = .ok (true, false)
    ∧ (∀ isa0 : ISAConfig, isa0.csr_spec = some "1.12" → isa0.csrs = [] →
        isa0.illegal_csrs = [] →
        ∀ e ∈ restrictedCsrs isa0.xlen,
          (addAllCsrs {} isa0).map
              (fun c => (decide (e.name ∈ c.csrs),
                         decide ((e.addr, "m", "rw") ∈ c.illegal_csrs)))
            = .ok (isSubstrB e.key isa0.isa, !(isSubstrB e.key isa0.isa))) := by
  constructor
  · rfl
  · intro isa0 hspec hcsrs hill e he
    rw [addAllCsrs_empty isa0]
    rw [if_pos (show (isa0.csr_spec == some "1.12") = true by rw [hspec]; rfl)]
    show Except.ok _ = _
    refine congrArg Except.ok ?_
    have hnka : ∀ e2 ∈ restrictedCsrs isa0.xlen, (e2.name, e2.key, e2.addr) ∈ restrictedNKA := by
      intro e2 he2
      rw [← restrictedCsrs_nka isa0.xlen]
      exact List.mem_map_of_mem _ he2
    have hdisjNKA : ∀ a ∈ restrictedNKA, a.1 ∉
        (["mvendorid", "marchid", "mimpid", "mhartid", "mconfigptr", "mstatus", "misa",
          "mie", "mtvec", "mscratch", "mepc", "mcause", "mtval", "mip", "mcycle", "minstret"]
          ++ ((List.range' 3 29).map fun i => "mhpmcounter" ++ toString i)
          ++ ((List.range' 3 29).map fun i => "mhpmevent" ++ toString i) : List String) := by
      decide
    have hdisj : ∀ e2 ∈ restrictedCsrs isa0.xlen, e2.name ∉
        (["mvendorid", "marchid", "mimpid", "mhartid", "mconfigptr", "mstatus", "misa",
          "mie", "mtvec", "mscratch", "mepc", "mcause", "mtval", "mip", "mcycle", "minstret"]
          ++ ((List.range' 3 29).map fun i => "mhpmcounter" ++ toString i)
          ++ ((List.range' 3 29).map fun i => "mhpmevent" ++ toString i) : List String) :=
      fun e2 he2 => hdisjNKA _ (hnka e2 he2)
    have hinjNameNKA : ∀ a ∈ restrictedNKA, ∀ b ∈ restrictedNKA,
        a.1 = b.1 → a.2.1 = b.2.1 := by decide
    have hinjName : ∀ a ∈ restrictedCsrs isa0.xlen, ∀ b ∈ restrictedCsrs isa0.xlen,
        a.name = b.name → a.key = b.key :=
      fun a ha b hb h => hinjNameNKA _ (hnka a ha) _ (hnka b hb) h
    have hinjAddrNKA : ∀ a ∈ restrictedNKA, ∀ b ∈ restrictedNKA,
        a.2.2 = b.2.2 → a.2.1 = b.2.1 := by decide
    have hinjAddr : ∀ a ∈ restrictedCsrs isa0.xlen, ∀ b ∈ restrictedCsrs isa0.xlen,
        a.addr = b.addr → a.key = b.key :=
      fun a ha b hb h => hinjAddrNKA _ (hnka a ha) _ (hnka b hb) h
    have hcmem : e.name ∈ (((restrictedCsrs isa0.xlen).foldl (restrictedStep isa0.isa)
        (specCsrsBase isa0.xlen, isa0.illegal_csrs)).1.foldl specSeedStep
        { isa0 with
          illegal_csrs := ((restrictedCsrs isa0.xlen).foldl (restrictedStep isa0.isa)
            (specCsrsBase isa0.xlen, isa0.illegal_csrs)).2 }).csrs ↔
        ∃ e2 ∈ restrictedCsrs isa0.xlen, isSubstrB e2.key isa0.isa = true ∧
          e2.name = e.name := by
      rw [specSeed_csrs_mem, restrictedFold_keys_mem, specCsrsBase_names]
      show e.name ∈ isa0.csrs ∨ _ ↔ _
      rw [hcsrs]
      simp only [List.not_mem_nil, false_or]
      rw [or_iff_right (hdisj e he)]
    have hcill : ((e.addr, "m", "rw") : String × String × String) ∈
        (((restrictedCsrs isa0.xlen).foldl (restrictedStep isa0.isa)
        (specCsrsBase isa0.xlen, isa0.illegal_csrs)).1.foldl specSeedStep
        { isa0 with
          illegal_csrs := ((restrictedCsrs isa0.xlen).foldl (restrictedStep isa0.isa)
            (specCsrsBase isa0.xlen, isa0.illegal_csrs)).2 }).illegal_csrs ↔
        ∃ e2 ∈ restrictedCsrs isa0.xlen, ¬(isSubstrB e2.key isa0.isa = true) ∧
          ((e.addr, "m", "rw") : String × String × String) = (e2.addr, "m", "rw") := by
      rw [specSeed_illegal]
      show _ ∈ ((restrictedCsrs isa0.xlen).foldl (restrictedStep isa0.isa)
        (specCsrsBase isa0.xlen, isa0.illegal_csrs)).2 ↔ _
      rw [restrictedFold_illegal_mem, hill]
      simp only [List.not_mem_nil, false_or]
    have h1 : (e.name ∈ (((restrictedCsrs isa0.xlen).foldl (restrictedStep isa0.isa)
        (specCsrsBase isa0.xlen, isa0.illegal_csrs)).1.foldl specSeedStep
        { isa0 with
          illegal_csrs := ((restrictedCsrs isa0.xlen).foldl (restrictedStep isa0.isa)
            (specCsrsBase isa0.xlen, isa0.illegal_csrs)).2 }).csrs) ↔
        (isSubstrB e.key isa0.isa = true) := by
      rw [hcmem]
      constructor
      · rintro ⟨e2, he2, hg2, hname⟩
        rw [← hinjName e2 he2 e he hname]
        exact hg2
      · intro hg
        exact ⟨e, he, hg, rfl⟩
    have h2 : (((e.addr, "m", "rw") : String × String × String) ∈
        (((restrictedCsrs isa0.xlen).foldl (restrictedStep isa0.isa)
        (specCsrsBase isa0.xlen, isa0.illegal_csrs)).1.foldl specSeedStep
        { isa0 with
          illegal_csrs := ((restrictedCsrs isa0.xlen).foldl (restrictedStep isa0.isa)
            (specCsrsBase isa0.xlen, isa0.illegal_csrs)).2 }).illegal_csrs) ↔
        ¬(isSubstrB e.key isa0.isa = true) := by
      rw [hcill]
      constructor
      · rintro ⟨e2, he2, hg2, heq⟩
        have haddr : e2.addr = e.addr := (congrArg Prod.fst heq).symm
        rw [← hinjAddr e2 he2 e he haddr]
        exact hg2
      · intro hg
        exact ⟨e, he, hg, rfl⟩
    refine Prod.ext ?_ ?_
    · exact (decide_eq_decide.mpr h1).trans (Bool.decide_coe _)
    · show _ = !isSubstrB e.key isa0.isa
      exact (decide_eq_decide.mpr h2).trans (by rw [decide_not, Bool.decide_coe])

/-- Claim C8 witness: the general privilege-gating statement applied
to the `medeleg` entry of the catalog at isa `rv32i`. -/
theorem C8_witness :
    (addAllCsrs {} { isa := "rv32i", csr_spec := some "1.12" }).map
        (fun c => (decide (("medeleg" : String) ∈ c.csrs),
                   decide ((("302", "m", "rw") : String × String × String) ∈ c.illegal_csrs)))
      = .ok (isSubstrB "s" "rv32i", !(isSubstrB "s" "rv32i")) :=
  C8_privilege_gating.2 { isa := "rv32i", csr_spec := some "1.12" } rfl rfl rfl
    ⟨"medeleg", "s", "302", none⟩ (by simp [restrictedCsrs])

/-- Claim C9: tokenizing the declared-CSR line
`mstatus const="32'h 0"_mask="32'h dead_beef"` yields the name
`mstatus` and exactly one test-descriptor token, with the spaces
inside the quoted values preserved. -/
theorem C9_quoted_tokenization :
    (ISAConfig.add_csr {} "mstatus const=\"32'h 0\"_mask=\"32'h dead_beef\"").1.csr_tests
        = [("mstatus", ["const=\"32'h 0\"_mask=\"32'h dead_beef\""])]
    ∧ (ISAConfig.add_csr {} "mstatus const=\"32'h 0\"_mask=\"32'h dead_beef\"").1.csrs
        = ["mstatus"]
    ∧ (ISAConfig.add_csr {} "mstatus const=\"32'h 0\"_mask=\"32'h dead_beef\"").2
        = "mstatus" := by
  refine ⟨rfl, rfl, rfl⟩

end Genchecks

namespace Genchecks


theorem exthrow_bind {α β : Type} (e : String) (f : α → Except String β) :
    ((throw e : Except String α) >>= f) = .error e := rfl

theorem exmap_throw {α β : Type} (e : String) (f : α → β) :
    (f <$> (throw e : Except String α)) = .error e := rfl

theorem exmap_error {α β : Type} (e : String) (f : α → β) :
    (f <$> (Except.error e : Except String α)) = .error e := rfl

theorem exmap_pure {α β : Type} (a : α) (f : α → β) :
    (f <$> (pure a : Except String α)) = .ok (f a) := rfl

theorem mode_line_eq (vx : String) :
    ("mode " ++ vx : String) = { data := 'm' :: 'o' :: 'd' :: 'e' :: ' ' :: vx.data } := by
  cases vx
  rfl

set_option maxHeartbeats 2000000 in
theorem consOptions_mode_line (kw : Hargs) (res : List String)
    (h : hfmtE kw consOptionsTpl = .ok res) :
    res[1]? = some ("mode " ++ (dictGet? kw "xmode").getD "") := by
  cases hx : dictGet? kw "xmode" with
  | none =>
    exfalso
    simp [hfmtE, consOptionsTpl, substLineE, substAv, hfmtStrip?, hx, isWs, isIdentChar,
      exthrow_bind, exmap_throw, exmap_pure, exmap_error, exbind_ok, exbind_error] at h
  | some vx =>
    cases ha : dictGet? kw "append" with
    | none =>
      exfalso
      simp [hfmtE, consOptionsTpl, substLineE, substAv, hfmtStrip?, hx, ha, isWs, isIdentChar,
        exthrow_bind, exmap_throw, exmap_pure, exmap_error, exbind_ok, exbind_error] at h
    | some va =>
      cases hd : dictGet? kw "depth_plus" with
      | none =>
        exfalso
        simp [hfmtE, consOptionsTpl, substLineE, substAv, hfmtStrip?, hx, ha, hd, isWs,
          isIdentChar, exthrow_bind, exmap_throw, exmap_pure, exmap_error, exbind_ok, exbind_error] at h
      | some vd =>
        cases hs : dictGet? kw "skip" with
        | none =>
          exfalso
          simp [hfmtE, consOptionsTpl, substLineE, substAv, hfmtStrip?, hx, ha, hd, hs, isWs,
            isIdentChar, exthrow_bind, exmap_throw, exmap_pure, exmap_error, exbind_ok, exbind_error] at h
        | some vs =>
          cases he : dictGet? kw "engine" with
          | none =>
            exfalso
            simp [hfmtE, consOptionsTpl, substLineE, substAv, hfmtStrip?, hx, ha, hd, hs, he,
              isWs, isIdentChar, exthrow_bind, exmap_throw, exmap_pure, exmap_error, exbind_ok, exbind_error] at h
          | some ve =>
            simp [hfmtE, consOptionsTpl, substLineE, substAv, hfmtStrip?, hx, ha, hd, hs, he,
              isWs, isIdentChar, exthrow_bind, exmap_throw, exmap_pure, exmap_error, exbind_ok, exbind_error] at h
            rw [expure_eq] at h
            obtain rfl := Except.ok.inj h
            simp only [Option.getD_some]
            rw [mode_line_eq]
            rfl

theorem bind_ok_exists {α β : Type} (e : Except String α) (f : α → Except String β) (b : β)
    (h : e >>= f = .ok b) : ∃ a, e = .ok a ∧ f a = .ok b := by
  cases e with
  | error msg => exact absurd h (by simp [exbind_error])
  | ok a => exact ⟨a, rfl, h⟩

theorem find?_map_upsert_same (t : Hargs) (k v : String)
    (hany : t.any (fun p => p.1 == k) = true) :
    (t.map (fun p => if p.1 == k then (k, v) else p)).find? (fun p => p.1 == k)
      = some (k, v) := by
  induction t with
  | nil => simp at hany
  | cons p t ih =>
    simp only [List.map_cons]
    by_cases hp : p.1 = k
    · rw [if_pos (show (p.1 == k) = true by simpa using hp)]
      exact List.find?_cons_of_pos _ (by simp)
    · rw [if_neg (show ¬((p.1 == k) = true) by simpa using hp)]
      rw [List.find?_cons_of_neg _ (by simpa using hp)]
      apply ih
      simp only [List.any_cons] at hany
      rcases Bool.or_eq_true_iff.mp hany with h1 | h1
      · exact absurd (eq_of_beq h1) hp
      · exact h1

theorem find?_map_upsert_other (t : Hargs) (k v k2 : String) (hkk2 : (k == k2) = false) :
    (t.map (fun p => if p.1 == k then (k, v) else p)).find? (fun p => p.1 == k2)
      = t.find? (fun p => p.1 == k2) := by
  induction t with
  | nil => rfl
  | cons p t ih =>
    simp only [List.map_cons]
    by_cases hp : p.1 = k
    · rw [if_pos (show (p.1 == k) = true by simpa using hp)]
      rw [List.find?_cons_of_neg _ (by simpa using hkk2)]
      rw [List.find?_cons_of_neg _ (by simp [hp]; simpa using hkk2)]
      exact ih
    · rw [if_neg (show ¬((p.1 == k) = true) by simpa using hp)]
      by_cases hpk2 : p.1 = k2
      · rw [List.find?_cons_of_pos _ (by simpa using hpk2),
          List.find?_cons_of_pos _ (by simpa using hpk2)]
      · rw [List.find?_cons_of_neg _ (by simpa using hpk2),
          List.find?_cons_of_neg _ (by simpa using hpk2)]
        exact ih

theorem dictGet_hset_same (h : Hargs) (k v : String) :
    dictGet? (hset h k v) k = some v := by
  unfold hset dictUpsert dictGet?
  by_cases ha : h.any (fun p => p.1 == k)
  · simp only [ha, if_true]
    rw [find?_map_upsert_same h k v ha]
    rfl
  · simp only [ha, Bool.false_eq_true, if_false]
    have hnone : h.find? (fun p => p.1 == k) = none := by
      rw [List.find?_eq_none]
      intro p hp hbeq
      exact (by simpa using ha : ¬ h.any (fun p => p.1 == k) = true)
        (List.any_eq_true.mpr ⟨p, hp, hbeq⟩)
    rw [List.find?_append, hnone]
    simp [List.find?]

theorem dictGet_hset_other (h : Hargs) (k v k2 : String) (hne : k2 ≠ k) :
    dictGet? (hset h k v) k2 = dictGet? h k2 := by
  have hkk2 : (k == k2) = false := by
    simp only [beq_eq_false_iff_ne]
    exact fun hc => hne hc.symm
  unfold hset dictUpsert dictGet?
  by_cases ha : h.any (fun p => p.1 == k)
  · simp only [ha, if_true]
    rw [find?_map_upsert_other h k v k2 hkk2]
  · simp only [ha, Bool.false_eq_true, if_false]
    rw [List.find?_append]
    cases hf : h.find? (fun p => p.1 == k2) with
    | some p => simp [hf]
    | none => simp [hf, List.find?, hkk2]


theorem consRender_mode_line (config : Config) (hargs : Hargs) (isa_cfg : ISAConfig)
    (solver_cfg : SolverConfig) (p : ConsParsed) (pf check : String)
    (chanidx : Option Nat) (trigVal : Option Int) (csr_mode bus_mode : Bool)
    (content : List String)
    (h : consRender config hargs isa_cfg solver_cfg p pf check chanidx trigVal csr_mode bus_mode
      = .ok content) :
    content[1]? = some ("mode " ++ (dictGet? hargs "xmode").getD "") := by
  simp only [consRender] at h
  obtain ⟨opts, hopts, h⟩ := bind_ok_exists _ _ _ h
  obtain ⟨v2, _, h⟩ := bind_ok_exists _ _ _ h
  obtain ⟨v3, _, h⟩ := bind_ok_exists _ _ _ h
  obtain ⟨v4, _, h⟩ := bind_ok_exists _ _ _ h
  obtain ⟨v5, _, h⟩ := bind_ok_exists _ _ _ h
  obtain ⟨v6, _, h⟩ := bind_ok_exists _ _ _ h
  obtain ⟨v7, _, h⟩ := bind_ok_exists _ _ _ h
  obtain ⟨v8, _, h⟩ := bind_ok_exists _ _ _ h
  obtain ⟨v9, _, h⟩ := bind_ok_exists _ _ _ h
  obtain ⟨v10, _, h⟩ := bind_ok_exists _ _ _ h
  obtain ⟨v11, _, h⟩ := bind_ok_exists _ _ _ h
  obtain ⟨v12, _, h⟩ := bind_ok_exists _ _ _ h
  obtain ⟨v13, _, h⟩ := bind_ok_exists _ _ _ h
  obtain ⟨v14, _, h⟩ := bind_ok_exists _ _ _ h
  obtain ⟨v15, _, h⟩ := bind_ok_exists _ _ _ h
  rw [expure_eq] at h
  obtain rfl := Except.ok.inj h
  have hm := consOptions_mode_line hargs opts hopts
  have hlen : 1 < opts.length := by
    cases hg : opts[1]? with
    | none => rw [hg] at hm; exact absurd hm (by simp)
    | some s => exact (List.getElem?_eq_some.mp hg).1
  simp only [List.append_assoc]
  rw [List.getElem?_append_left hlen]
  exact hm

/-- Claim C10: for every consistency check whose descriptor is
rendered, the second line of the descriptor is `mode <xmode>`, where
`xmode` is the configured proof mode forced to `cover` exactly when
the final group-prefixed, channel-suffixed check name is the literal
`cover` or contains the substring `csrc_hpm` (or the configured mode
is itself `cover`); consequently the cover-reachability check of a
named group (final name `<group>_cover`) keeps the configured proof
mode, as the concrete conjunct shows (`g_cover` renders `mode bmc`
while the ungrouped `cover` and a `csrc_hpm` check render
`mode cover`). -/
theorem C10_cover_mode :
    (∀ (config : Config) (hargs : Hargs) (isa_cfg : ISAConfig) (solver_cfg : SolverConfig)
       (path_cfg : PathConfig) (grp : Option String) (check0 : String)
       (chanidx start depth trig : Option Nat) (csr_mode : Bool) (csr_test : Option String)
       (bus_mode : Bool) (name : String) (fw : FileWrite) (isa2 : ISAConfig) (hargs2 : Hargs),
      checkCons config hargs isa_cfg solver_cfg path_cfg grp check0 chanidx start depth trig
          csr_mode csr_test bus_mode = .ok (some name, some fw, isa2, hargs2) →
      fw.lines[1]? = some ("mode " ++ consXmode ((dictGet? hargs "mode").getD "") name))
    ∧ (∀ mode check, consXmode mode check = "cover" ↔
        (check = "cover" ∨ isSubstrB "csrc_hpm" check = true ∨ mode = "cover"))
    ∧ (consProducedWrite (checkCons c10cfg c10hargs {} {} { corename := "c" } (some "g")
        "cover" none (some 0) (some 1) none false none false)).map (fun w => w.lines[1]?)
        = some (some "mode bmc")
    ∧ (consProducedWrite (checkCons c10cfg c10hargs {} {} { corename := "c" } none
        "cover" none (some 0) (some 1) none false none false)).map (fun w => w.lines[1]?)
        = some (some "mode cover")
    ∧ (consProducedWrite (checkCons c10cfg c10hargs {} {} { corename := "c" } none
        "mhpmevent3" (some 0) (some 0) (some 1) none true (some "hpm=\"3\"") false)).map
        (fun w => w.lines[1]?) = some (some "mode cover") := by
  refine ⟨?_, ?_, rfl, rfl, rfl⟩
  · intro config hargs isa_cfg solver_cfg path_cfg grp check0 chanidx start depth trig
      csr_mode csr_test bus_mode name fw isa2 hargs2 h
    simp only [checkCons] at h
    obtain ⟨p, hp, h⟩ := bind_ok_exists _ _ _ h
    obtain ⟨d, hd, h⟩ := bind_ok_exists _ _ _ h
    cases d with
    | none => simp [expure_eq] at h
    | some depth_cfg =>
      obtain ⟨sv, hsv, h⟩ := bind_ok_exists _ _ _ h
      obtain ⟨tv, htv, h⟩ := bind_ok_exists _ _ _ h
      obtain ⟨dv, hdv, h⟩ := bind_ok_exists _ _ _ h
      obtain ⟨mode, hmode, h⟩ := bind_ok_exists _ _ _ h
      obtain ⟨dis, hdis, h⟩ := bind_ok_exists _ _ _ h
      cases dis with
      | true => simp [expure_eq] at h
      | false =>
        simp only [Bool.false_eq_true, if_false] at h
        obtain ⟨content, hcontent, h⟩ := bind_ok_exists _ _ _ h
        rw [expure_eq] at h
        have hinj := Except.ok.inj h
        simp only [Prod.mk.injEq] at hinj
        obtain ⟨h1, h2, h3, h4⟩ := hinj
        obtain rfl := Option.some.inj h1
        obtain rfl := (Option.some.inj h2).symm
        have hml := consRender_mode_line _ _ _ _ _ _ _ _ _ _ _ _ hcontent
        rw [dictGet_hset_same] at hml
        simp only [Option.getD_some] at hml
        rw [hargsMode] at hmode
        rw [dictGet_hset_other _ _ _ _ (by decide),
          dictGet_hset_other _ _ _ _ (by decide),
          dictGet_hset_other _ _ _ _ (by decide),
          dictGet_hset_other _ _ _ _ (by decide),
          dictGet_hset_other _ _ _ _ (by decide)] at hmode
        cases chanidx with
        | none =>
          rw [dictGet_hset_other _ _ _ _ (by decide)] at hmode
          cases hgm : dictGet? hargs "mode" with
          | none => rw [hgm] at hmode; exact absurd hmode (by simp)
          | some m =>
            rw [hgm] at hmode
            obtain rfl := Except.ok.inj hmode
            simp only [Option.getD_some]
            exact hml
        | some c =>
          rw [dictGet_hset_other _ _ _ _ (by decide),
            dictGet_hset_other _ _ _ _ (by decide)] at hmode
          cases hgm : dictGet? hargs "mode" with
          | none => rw [hgm] at hmode; exact absurd hmode (by simp)
          | some m =>
            rw [hgm] at hmode
            obtain rfl := Except.ok.inj hmode
            simp only [Option.getD_some]
            exact hml
  · intro mode check
    unfold consXmode
    constructor
    · intro h
      by_cases hc : (check == "cover" || isSubstrB "csrc_hpm" check) = true
      · rcases Bool.or_eq_true_iff.mp hc with h1 | h1
        · exact Or.inl (eq_of_beq h1)
        · exact Or.inr (Or.inl h1)
      · rw [if_neg hc] at h
        exact Or.inr (Or.inr h)
    · rintro (rfl | hsub | rfl)
      · rw [if_pos (by simp)]
      · rw [if_pos (by simp [hsub])]
      · split <;> rfl

/-- Claim C10 witness: the mode-line statement applied to the grouped
cover check of the demo configuration. -/
theorem C10_witness :
    c10fw.lines[1]? = some ("mode " ++ consXmode ((dictGet? c10hargs "mode").getD "") c10name) :=
  C10_cover_mode.1 c10cfg c10hargs {} {} { corename := "c" } (some "g") "cover"
    none (some 0) (some 1) none false none false c10name c10fw c10isa2 c10hargs2 rfl

end Genchecks
